import Mathlib

/-!
Verification development for the read-only ZIP archive engine
(`static_frame/core/archive_zip.py`).

The Python source is shallowly embedded over byte lists (`Bytes := List Nat`,
each element a byte value).  Pure record decoding becomes pure functions;
the stateful reader objects (`_SharedFileRO`, `ZipFilePartRO`, `ZipFileRO`)
become explicit state structures with state-passing operations; every Python
exception becomes a constructor of the error type `Err` carried by `Except`.
-/

deriving instance DecidableEq for Except

set_option maxRecDepth 8000

namespace ArchiveZip

/-- A byte string: list of byte values (each `< 256` in well-formed data;
none of the decoders depend on that bound). -/
abbrev Bytes := List Nat

/-- Errors raised by the engine.  Each constructor stands for one concrete
`raise` site (exception class and message) in the Python source. -/
inductive Err where
  /-- `BadZipFile("File is not a zip file")` -/
  | badZipNotZip : Err
  /-- `BadZipFile("zipfiles that span multiple disks are not supported")` -/
  | badZipSpanned : Err
  /-- `BadZipFile("Bad offset for central directory")` -/
  | badZipBadCdOffset : Err
  /-- `BadZipFile("Truncated central directory")` -/
  | badZipTruncatedCd : Err
  /-- `BadZipFile("Bad magic number for central directory")` -/
  | badZipBadCdMagic : Err
  /-- `BadZipFile("Truncated file header")` -/
  | badZipTruncatedHeader : Err
  /-- `BadZipFile("Bad magic number for file header")` -/
  | badZipBadHeaderMagic : Err
  /-- `BadZipFile("File name in directory ... and header ... differ.")` -/
  | badZipNameMismatch : Err
  /-- `OSError` from the underlying byte source (failed seek/read). -/
  | osError : Err
  /-- `EOFError` from `ZipFilePartRO._read2`. -/
  | eofError : Err
  /-- `AttributeError`: attribute access on a name never assigned
  (`ZipFilePartRO._compress_type`, whose assignment is commented out). -/
  | attributeError : Err
  /-- `ValueError("Attempt to use ZIP archive that was already closed")` -/
  | valueErrorClosed : Err
  /-- `ValueError("whence must be os.SEEK_SET (0), ...")` -/
  | valueErrorWhence : Err
  /-- `KeyError` from `ZipFileRO.getinfo`. -/
  | keyError : Err
  /-- `AssertionError` (`assert compress_type == ZIP_STORED` during the
  central-directory parse, `assert self._file_ref_count > 0` in `_close`). -/
  | assertionError : Err
  /-- `NotImplementedError("compressed patched data (flag bit 5)")` -/
  | notImplPatch : Err
  /-- `NotImplementedError("strong encryption (flag bit 6)")` -/
  | notImplStrongEnc : Err
  /-- `NotImplementedError()` for the encrypted flag in `open`. -/
  | notImplEncrypted : Err
  /-- `NotImplementedError('not expecting an unseekable file')` -/
  | notImplUnseekable : Err
deriving DecidableEq, Repr

/-- Read `n` bytes starting at position `pos` (the semantics of a
`seek(pos)` followed by `read(n)` on a byte source holding `data`:
short reads happen silently at end of data). -/
def readAt (data : Bytes) (pos n : Nat) : Bytes :=
  (data.drop pos).take n

/-- Little-endian 16-bit field at byte index `i` (struct code `H`). -/
def u16 (b : Bytes) (i : Nat) : Nat :=
  b.getD i 0 + 256 * b.getD (i + 1) 0

/-- Little-endian 32-bit field at byte index `i` (struct code `L`). -/
def u32 (b : Bytes) (i : Nat) : Nat :=
  u16 b i + 65536 * u16 b (i + 2)

/-- Little-endian 64-bit field at byte index `i` (struct code `Q`). -/
def u64 (b : Bytes) (i : Nat) : Nat :=
  u32 b i + 4294967296 * u32 b (i + 4)

/-- `_END_ARCHIVE_STRING = b"PK\005\006"` -/
def endArchiveString : Bytes := [80, 75, 5, 6]

/-- `_END_ARCHIVE_SIZE` (struct `<4s4H2LH`). -/
def endArchiveSize : Nat := 22

/-- `_CENTRAL_DIR_STRING = b"PK\001\002"` -/
def centralDirString : Bytes := [80, 75, 1, 2]

/-- `_CENTRAL_DIR_SIZE` (struct `<4s4B4HL2L5H2L`). -/
def centralDirSize : Nat := 46

/-- `_FILE_HEADER_STRING = b"PK\003\004"` -/
def fileHeaderString : Bytes := [80, 75, 3, 4]

/-- `_FILE_HEADER_SIZE` (struct `<4s2B4HL2L2H`). -/
def fileHeaderSize : Nat := 30

/-- `_END_ARCHIVE64_LOCATOR_STRING = b"PK\x06\x07"` -/
def endArchive64LocatorString : Bytes := [80, 75, 6, 7]

/-- `_END_ARCHIVE64_LOCATOR_SIZE` (struct `<4sLQL`). -/
def endArchive64LocatorSize : Nat := 20

/-- `_END_ARCHIVE64_STRING = b"PK\x06\x06"` -/
def endArchive64String : Bytes := [80, 75, 6, 6]

/-- `_END_ARCHIVE64_SIZE` (struct `<4sQ2H2L4Q`). -/
def endArchive64Size : Nat := 56

/-- `ZIP_STORED = 0` -/
def ZIP_STORED : Nat := 0

/-- `_MASK_ENCRYPTED = 1 << 0` -/
def MASK_ENCRYPTED : Nat := 1

/-- `_MASK_COMPRESSED_PATCH = 1 << 5` -/
def MASK_COMPRESSED_PATCH : Nat := 32

/-- `_MASK_STRONG_ENCRYPTION = 1 << 6` -/
def MASK_STRONG_ENCRYPTION : Nat := 64

/-- `_MASK_UTF_FILENAME = 1 << 11` -/
def MASK_UTF_FILENAME : Nat := 2048

/-- The decoded "end of central directory" data: the nine fields of the
EOCD structure plus the appended comment bytes and record file offset
(items `_ECD_SIGNATURE` .. `_ECD_LOCATION` of the Python list). -/
structure EndArchive where
  signature : Bytes
  diskNumber : Nat
  diskStart : Nat
  entriesThisDisk : Nat
  entriesTotal : Nat
  size : Nat
  offset : Nat
  commentSize : Nat
  comment : Bytes
  location : Nat
deriving DecidableEq, Repr

/-- `struct.unpack(_END_ARCHIVE_STRUCT, b)` for a 22-byte record `b`
(layout `<4s4H2LH`); comment and location are filled in by the caller. -/
def unpackEndArchive (b : Bytes) : EndArchive where
  signature := b.take 4
  diskNumber := u16 b 4
  diskStart := u16 b 6
  entriesThisDisk := u16 b 8
  entriesTotal := u16 b 10
  size := u32 b 12
  offset := u32 b 16
  commentSize := u16 b 20
  comment := []
  location := 0

/-- `_end_archive_update_zip64(fpin, offset, endrec)`: probe for the ZIP64
locator and record immediately before the EOCD record and, when both are
present and consistent, overwrite the EOCD fields with the 64-bit values.
`offset` is the (negative) end-relative seek offset passed by the caller.
The first seek is wrapped in `try/except OSError` in the source, so a
negative target returns `endrec` unchanged; the second seek is unguarded,
so a negative target raises `OSError`. -/
def endArchiveUpdateZip64 (data : Bytes) (offset : Int) (endrec : EndArchive) :
    Except Err EndArchive :=
  let filesize : Int := data.length
  let pos1 : Int := filesize + offset - endArchive64LocatorSize
  if pos1 < 0 then .ok endrec
  else
    let d := readAt data pos1.toNat endArchive64LocatorSize
    if d.length ≠ endArchive64LocatorSize then .ok endrec
    else if d.take 4 ≠ endArchive64LocatorString then .ok endrec
    else if u32 d 4 ≠ 0 ∨ u32 d 16 > 1 then .error .badZipSpanned
    else
      let pos2 : Int := filesize + offset - endArchive64LocatorSize - endArchive64Size
      if pos2 < 0 then .error .osError
      else
        let d2 := readAt data pos2.toNat endArchive64Size
        if d2.length ≠ endArchive64Size then .ok endrec
        else if d2.take 4 ≠ endArchive64String then .ok endrec
        else .ok { endrec with
          signature := endArchive64String
          diskNumber := u32 d2 16
          diskStart := u32 d2 20
          entriesThisDisk := u64 d2 24
          entriesTotal := u64 d2 32
          size := u64 d2 40
          offset := u64 d2 48 }

/-- `data.rfind(pat)` restricted to positions `< n`: the greatest `i < n`
at which `pat` occurs in `w`, if any (model of `bytes.rfind`). -/
def rfindAux (w pat : Bytes) : Nat → Option Nat
  | 0 => none
  | n + 1 =>
    if (w.drop n).take pat.length = pat then some n else rfindAux w pat n

/-- `w.rfind(pat)`: position of the last occurrence of `pat` in `w`. -/
def rfindLast (w pat : Bytes) : Option Nat :=
  rfindAux w pat (w.length + 1)

/-- The fast-path condition of `_extract_end_archive`: the byte source holds
at least `_END_ARCHIVE_SIZE` bytes, its last 22 bytes start with the EOCD
signature, and their last two bytes (the comment-length field) are zero. -/
def fastPathCond (data : Bytes) : Prop :=
  endArchiveSize ≤ data.length ∧
    (data.drop (data.length - endArchiveSize)).take 4 = endArchiveString ∧
    (data.drop (data.length - endArchiveSize)).drop 20 = [0, 0]

instance (data : Bytes) : Decidable (fastPathCond data) := by
  unfold fastPathCond; infer_instance

/-- The EOCD record produced by the fast path of `_extract_end_archive`
(before the ZIP64 probe): decode the last 22 bytes, append an empty
comment and the record offset `filesize - _END_ARCHIVE_SIZE`. -/
def fastEndArchive (data : Bytes) : Option EndArchive :=
  if fastPathCond data then
    some { unpackEndArchive (data.drop (data.length - endArchiveSize)) with
           comment := [], location := data.length - endArchiveSize }
  else none

/-- The scan window of `_extract_end_archive`: the bytes from position
`max(filesize - (1 << 16) - _END_ARCHIVE_SIZE, 0)` to the end.  The
subtraction is over `Int` and the `max` with `0` is explicit, exactly as in
the source. -/
def scanWindowStart (data : Bytes) : Nat :=
  (max ((data.length : Int) - 65536 - endArchiveSize) 0).toNat

/-- The EOCD record produced by the comment-scanning fallback of
`_extract_end_archive` (before the ZIP64 probe): take the last occurrence
of the signature in the scan window; a record truncated by the end of the
source yields `none` ("Zip file is corrupted"). -/
def scanEndArchive (data : Bytes) : Option EndArchive :=
  match rfindLast (data.drop (scanWindowStart data)) endArchiveString with
  | none => none
  | some start =>
    let commentMaxStart := scanWindowStart data
    let d := data.drop commentMaxStart
    let recData := (d.drop start).take endArchiveSize
    if recData.length ≠ endArchiveSize then none
    else
      let e0 := unpackEndArchive recData
      let comment := (d.drop (start + endArchiveSize)).take e0.commentSize
      some { e0 with comment := comment, location := commentMaxStart + start }

/-- `_extract_end_archive(fpin)`: locate and decode the EOCD record,
then probe for ZIP64 structures.  `ok none` models returning `None`
("no valid end of central directory structure"); the initial
`fpin.seek(-_END_ARCHIVE_SIZE, 2)` fails with `OSError` (caught, returning
`None`) when the source holds fewer than 22 bytes. -/
def extractEndArchive (data : Bytes) : Except Err (Option EndArchive) :=
  let filesize := data.length
  if filesize < endArchiveSize then .ok none
  else
    match fastEndArchive data with
    | some endrec =>
      (endArchiveUpdateZip64 data (-endArchiveSize) endrec).map some
    | none =>
      match scanEndArchive data with
      | none => .ok none
      | some endrec =>
        (endArchiveUpdateZip64 data ((endrec.location : Int) - filesize) endrec).map
          some

/-- Filename decoding.  The source defers to the external `utf-8` and
`cp437` codecs (Python standard library, outside this core).  Both are
modelled as the identity on code units, which is exact for ASCII names —
the only names this development exercises; the flag-driven choice between
the two codecs is retained. -/
def decodeUtf8 (bs : Bytes) : Bytes := bs

/-- The legacy single-byte code page decode (see `decodeUtf8`). -/
def decodeCp437 (bs : Bytes) : Bytes := bs

/-- Name decoding switched on `_MASK_UTF_FILENAME` of the general-purpose
flag bits, as done both in `_read_contents` and in `open`. -/
def decodeName (flags : Nat) (bs : Bytes) : Bytes :=
  if flags &&& MASK_UTF_FILENAME ≠ 0 then decodeUtf8 bs else decodeCp437 bs

/-- `ZipInfoRO`: the per-entry metadata kept by this engine (the live
slots of the Python class; `header_offset` is stored after the
concatenation-offset adjustment, hence an `Int`). -/
structure ZipInfoRO where
  filename : Bytes
  flagBits : Nat
  headerOffset : Int
  compressSize : Nat
  fileSize : Nat
deriving DecidableEq, Repr

/-- Lookup in the name-to-info table (`dict.get`): first (unique) match. -/
def lookupName (m : List (Bytes × ZipInfoRO)) (k : Bytes) : Option ZipInfoRO :=
  match m with
  | [] => none
  | (k', v) :: t => if k' = k then some v else lookupName t k

/-- Python `dict` insertion: overwrite the value in place when the key is
already present (insertion order preserved, last write wins), else append. -/
def dictInsert (m : List (Bytes × ZipInfoRO)) (k : Bytes) (v : ZipInfoRO) :
    List (Bytes × ZipInfoRO) :=
  if (lookupName m k).isSome then
    m.map (fun p => if p.1 = k then (k, v) else p)
  else m ++ [(k, v)]

/-- One pass of the `while total < size_cd` loop of `_read_contents` over
the central-directory scratch buffer `dataCd`: decode a 46-byte record plus
its trailing name/extra/comment runs at running offset `total`, reject a
truncated record, a bad signature, or (the `assert`) a compression method
other than stored, store the entry with its header offset increased by
`concat`, and continue until the consumed total reaches `sizeCd`. -/
def parseLoop (dataCd : Bytes) (sizeCd : Nat) (concat : Int) (total : Nat)
    (m : List (Bytes × ZipInfoRO)) : Except Err (List (Bytes × ZipInfoRO)) :=
  if h : total < sizeCd then
    let cdir := readAt dataCd total centralDirSize
    if cdir.length ≠ centralDirSize then .error .badZipTruncatedCd
    else if cdir.take 4 ≠ centralDirString then .error .badZipBadCdMagic
    else
      let filenameLength := u16 cdir 28
      let filename := readAt dataCd (total + centralDirSize) filenameLength
      let flags := u16 cdir 8
      let name := decodeName flags filename
      let extraLength := u16 cdir 30
      let commentLength := u16 cdir 32
      if u16 cdir 10 ≠ ZIP_STORED then .error .assertionError
      else
        let zinfo : ZipInfoRO :=
          { filename := name
            flagBits := flags
            headerOffset := (u32 cdir 42 : Int) + concat
            compressSize := u32 cdir 20
            fileSize := u32 cdir 24 }
        parseLoop dataCd sizeCd concat
          (total + centralDirSize + filenameLength + extraLength + commentLength)
          (dictInsert m name zinfo)
  else .ok m
termination_by sizeCd - total
decreasing_by simp only [centralDirSize]; omega

/-- The concatenation offset of `_read_contents`:
`endrec[_ECD_LOCATION] - size_cd - offset_cd`, reduced by the ZIP64
locator-plus-record size when ZIP64 structures were found (signalled by the
signature having been overwritten with the ZIP64 signature). -/
def concatOffset (endrec : EndArchive) : Int :=
  (endrec.location : Int) - endrec.size - endrec.offset -
    (if endrec.signature = endArchive64String then
      (endArchive64Size + endArchive64LocatorSize : Int) else 0)

/-- The result of a successful `_read_contents`: the entry table (in scan
order) and the central-directory start offset. -/
structure ContentsRO where
  nameToInfo : List (Bytes × ZipInfoRO)
  startDir : Int
deriving DecidableEq, Repr

/-- The central-directory phase of `_read_contents`, given the located EOCD
record: compute the concatenation offset and directory start (negative is
fatal), read `size_cd` bytes from there into a scratch buffer, and run the
entry-decoding loop. -/
def readCentralDir (data : Bytes) (endrec : EndArchive) : Except Err ContentsRO :=
  let sizeCd := endrec.size
  let offsetCd := endrec.offset
  let concat := concatOffset endrec
  let startDir : Int := offsetCd + concat
  if startDir < 0 then .error .badZipBadCdOffset
  else
    let dataCd := readAt data startDir.toNat sizeCd
    (parseLoop dataCd sizeCd concat 0 []).map (fun m => ⟨m, startDir⟩)

/-- `ZipFileRO._read_contents`: locate the EOCD record (`OSError` and a
`None` result both become `BadZipFile("File is not a zip file")`), then
parse the central directory. -/
def readContents (data : Bytes) : Except Err ContentsRO :=
  match extractEndArchive data with
  | .error .osError => .error .badZipNotZip
  | .error e => .error e
  | .ok none => .error .badZipNotZip
  | .ok (some endrec) => readCentralDir data endrec

/-- The observable state of a `ZipFileRO` archive handle over a byte source
`data` (kept separately as a pure parameter).  `fileOpen` models
`self._file is not None`; `physCloseCount` counts the calls made to the
underlying descriptor's own `close()`; `seekable` is the byte source's
`seekable()` answer. -/
structure ZipState where
  nameToInfo : List (Bytes × ZipInfoRO)
  startDir : Int
  filePassed : Bool
  fileOpen : Bool
  fileRefCount : Nat
  physCloseCount : Nat
  seekable : Bool
deriving DecidableEq, Repr

/-- `ZipFileRO._close(file)`: assert the reference count is positive,
decrement it, and physically close the descriptor exactly when the count
reaches zero and the engine itself opened the source. -/
def zipCloseRef (z : ZipState) : Except Err ZipState :=
  if z.fileRefCount = 0 then .error .assertionError
  else
    let r := z.fileRefCount - 1
    .ok { z with
      fileRefCount := r
      physCloseCount :=
        if r = 0 ∧ z.filePassed = false then z.physCloseCount + 1
        else z.physCloseCount }

/-- `ZipFileRO.close()`: a no-op when already closed, else drop the
handle's own reference. -/
def zipClose (z : ZipState) : Except Err ZipState :=
  if z.fileOpen = false then .ok z
  else zipCloseRef { z with fileOpen := false }

/-- `ZipFileRO.__init__` in read mode: reference count starts at one,
then the table of contents is read (a parse failure closes the freshly
acquired descriptor and re-raises; that partially-built state is dropped). -/
def zipInit (data : Bytes) (filePassed seekable : Bool) : Except Err ZipState :=
  match readContents data with
  | .error e => .error e
  | .ok c => .ok
      { nameToInfo := c.nameToInfo
        startDir := c.startDir
        filePassed := filePassed
        fileOpen := true
        fileRefCount := 1
        physCloseCount := 0
        seekable := seekable }

/-- `ZipFileRO.namelist()`: no closed-handle check in the source; it reads
the retained name map unconditionally. -/
def namelistE (z : ZipState) : Except Err (List Bytes) :=
  .ok (z.nameToInfo.map Prod.fst)

/-- `ZipFileRO.infolist()`: no closed-handle check in the source. -/
def infolistE (z : ZipState) : Except Err (List ZipInfoRO) :=
  .ok (z.nameToInfo.map Prod.snd)

/-- `ZipFileRO.getinfo(name)`: lookup with `KeyError` on a miss; no
closed-handle check in the source. -/
def getinfoE (z : ZipState) (name : Bytes) : Except Err ZipInfoRO :=
  match lookupName z.nameToInfo name with
  | none => .error .keyError
  | some i => .ok i

/-- The state of a `_SharedFileRO` logical cursor: its emulated position
and whether it has been closed.  Because every `read` re-seeks the
underlying descriptor to `_pos` first, reads are a pure function of
(`data`, `pos`); the one `seek(. , SEEK_CUR)` call site (skipping the extra
field in `open`) runs immediately after a read, when the physical cursor
equals `_pos`, so it is modelled as `pos + offset`. -/
structure SharedState where
  pos : Int
  isOpen : Bool
deriving DecidableEq, Repr

/-- `_SharedFileRO.read(n)`: re-seek to the emulated position and read.
A negative emulated position makes the underlying `seek` raise `OSError`. -/
def sharedRead (data : Bytes) (s : SharedState) (n : Nat) :
    Except Err (Bytes × SharedState) :=
  if s.pos < 0 then .error .osError
  else
    let d := readAt data s.pos.toNat n
    .ok (d, { s with pos := s.pos + d.length })

/-- `ZipFilePartRO.MIN_READ_SIZE` -/
def MIN_READ_SIZE : Nat := 4096

/-- `ZipFilePartRO.MAX_SEEK_READ` -/
def MAX_SEEK_READ : Nat := 16777216

/-- `ZipFilePartRO.MAX_N = 1 << 31 - 1` (Python precedence: `1 << 30`). -/
def MAX_N : Nat := 1073741824

/-- The state of a `ZipFilePartRO` entry reader: the shared-file cursor,
the remaining compressed and uncompressed counters, the end-of-stream flag,
the read-ahead buffer with its offset, and the original (start offset,
compressed size, file size) triple kept for backward-seek resets. -/
structure PartState where
  shared : SharedState
  closeFileobj : Bool
  compressLeft : Nat
  left : Nat
  eof : Bool
  readbuffer : Bytes
  offset : Nat
  origCompressStart : Int
  origCompressSize : Nat
  origFileSize : Nat
deriving DecidableEq, Repr

/-- `ZipFilePartRO.__init__`: initialize the counters from the directory
metadata; an unseekable byte source is rejected with
`NotImplementedError`. -/
def partInit (sh : SharedState) (zinfo : ZipInfoRO) (closeFileobj seekable : Bool) :
    Except Err PartState :=
  if seekable then .ok
    { shared := sh
      closeFileobj := closeFileobj
      compressLeft := zinfo.compressSize
      left := zinfo.fileSize
      eof := false
      readbuffer := []
      offset := 0
      origCompressStart := sh.pos
      origCompressSize := zinfo.compressSize
      origFileSize := zinfo.fileSize }
  else .error .notImplUnseekable

/-- `ZipFilePartRO._read2(n)`: nothing once the compressed counter is
exhausted; otherwise read between `MIN_READ_SIZE` and the remaining
compressed bytes from the shared file, decrementing the counter; an empty
physical read raises `EOFError`. -/
def partRead2 (data : Bytes) (s : PartState) (n : Nat) :
    Except Err (Bytes × PartState) :=
  if s.compressLeft = 0 then .ok ([], s)
  else
    let n1 := min (max n MIN_READ_SIZE) s.compressLeft
    match sharedRead data s.shared n1 with
    | .error e => .error e
    | .ok (d, sh) =>
      let s1 := { s with shared := sh, compressLeft := s.compressLeft - d.length }
      if d = [] then .error .eofError else .ok (d, s1)

/-- `ZipFilePartRO._read1(n)` for the stored method: read raw bytes, set
`eof` when the compressed counter empties, truncate to the uncompressed
bytes still owed (`data[:self._left]`), and set `eof` when that counter
empties as well. -/
def partRead1 (data : Bytes) (s : PartState) (n : Nat) :
    Except Err (Bytes × PartState) :=
  if s.eof ∨ n = 0 then .ok ([], s)
  else
    match partRead2 data s n with
    | .error e => .error e
    | .ok (d, s1) =>
      let s2 := { s1 with eof := s1.compressLeft = 0 }
      let d2 := d.take s2.left
      let s3 := { s2 with left := s2.left - d2.length }
      let s4 := if s3.left = 0 then { s3 with eof := true } else s3
      .ok (d2, s4)

/-- Loop variant for the reader loops: `_read1` strictly decreases it
whenever it returns data-or-eof progress. -/
def partMeasure (s : PartState) : Nat :=
  if s.eof then 0 else s.compressLeft + 1

theorem partRead2_cases (data : Bytes) (s : PartState) (n : Nat) (d : Bytes)
    (s' : PartState) (h : partRead2 data s n = .ok (d, s')) :
    (s.compressLeft = 0 ∧ d = [] ∧ s' = s) ∨
      (d ≠ [] ∧ s'.compressLeft = s.compressLeft - d.length ∧ s'.eof = s.eof ∧
        s'.left = s.left ∧ s.compressLeft ≠ 0) := by
  unfold partRead2 at h
  split at h
  · left
    obtain ⟨rfl, rfl⟩ : [] = d ∧ s = s' := by
      simpa using h
    simp_all
  · right
    dsimp only at h
    split at h
    · exact absurd h (by simp)
    · split at h
      · exact absurd h (by simp)
      · obtain ⟨rfl, rfl⟩ := (by simpa using h : _ ∧ _)
        simp_all

theorem partRead1_measure_lt (data : Bytes) (s : PartState) (n : Nat)
    (he : s.eof = false) (hn : n ≠ 0) (d : Bytes) (s' : PartState)
    (h : partRead1 data s n = .ok (d, s')) : partMeasure s' < partMeasure s := by
  unfold partRead1 at h
  rw [he] at h
  simp only [Bool.false_eq_true, false_or, hn, if_false] at h
  split at h
  · exact absurd h (by simp)
  · rename_i d0 s1 heq
    rcases partRead2_cases data s n d0 s1 heq with ⟨hc, rfl, rfl⟩ | ⟨hd0, hcl, _, _, hc⟩
    · obtain ⟨rfl, rfl⟩ := (by simpa using h : _ ∧ _)
      simp only [partMeasure, he, hc]
      split
      · simpa
      · simp_all
    · have hs' : s'.compressLeft = s.compressLeft - d0.length := by
        obtain ⟨rfl, rfl⟩ := (by simpa using h : _ ∧ _)
        split
        · simpa using hcl
        · simpa using hcl
      have hb : partMeasure s' ≤ s'.compressLeft + 1 := by
        unfold partMeasure
        split <;> omega
      have hlen : 0 < d0.length := List.length_pos.mpr hd0
      have hm : partMeasure s = s.compressLeft + 1 := by
        simp [partMeasure, he]
      omega

/-- The unbounded-read loop of `ZipFilePartRO.read` (argument `None` or
negative): `while not self._eof: buf += self._read1(self.MAX_N)`. -/
def readAllAux (data : Bytes) (s : PartState) (acc : Bytes) :
    Except Err (Bytes × PartState) :=
  if h : s.eof = true then .ok (acc, s)
  else
    match h1 : partRead1 data s MAX_N with
    | .error e => .error e
    | .ok (d, s') => readAllAux data s' (acc ++ d)
termination_by partMeasure s
decreasing_by
  exact partRead1_measure_lt data s MAX_N (by simpa using h) (by decide) d s' h1

/-- `ZipFilePartRO.read(n)` for `n` omitted, `None` or negative: drain the
buffer, then read until end of stream. -/
def partReadAll (data : Bytes) (s : PartState) : Except Err (Bytes × PartState) :=
  let buf := s.readbuffer.drop s.offset
  readAllAux data { s with readbuffer := [], offset := 0 } buf

/-- The bounded-read loop of `ZipFilePartRO.read`:
`while n > 0 and not self._eof`, buffering any surplus from the last
chunk. -/
def readNAux (data : Bytes) (s : PartState) (n : Nat) (buf : Bytes) :
    Except Err (Bytes × PartState) :=
  if h : n = 0 ∨ s.eof = true then .ok (buf, s)
  else
    match h1 : partRead1 data s n with
    | .error e => .error e
    | .ok (d, s') =>
      if n < d.length then
        .ok (buf ++ d.take n, { s' with readbuffer := d, offset := n })
      else readNAux data s' (n - d.length) (buf ++ d)
termination_by partMeasure s + n
decreasing_by
  have := partRead1_measure_lt data s n (by simpa using (not_or.mp h).2)
    (not_or.mp h).1 d s' h1
  omega

/-- `ZipFilePartRO.read(n)` for `n ≥ 0`: serve from the buffer when it
covers the request, else drain it and enter the read loop. -/
def partReadN (data : Bytes) (s : PartState) (n : Nat) :
    Except Err (Bytes × PartState) :=
  let endIdx := n + s.offset
  if endIdx < s.readbuffer.length then
    .ok ((s.readbuffer.drop s.offset).take n, { s with offset := endIdx })
  else
    let n' := endIdx - s.readbuffer.length
    let buf := s.readbuffer.drop s.offset
    readNAux data { s with readbuffer := [], offset := 0 } n' buf

/-- `ZipFilePartRO.read(n)` with a Python integer argument. -/
def partRead (data : Bytes) (s : PartState) (n : Int) :
    Except Err (Bytes × PartState) :=
  if n < 0 then partReadAll data s else partReadN data s n.toNat

/-- `ZipFilePartRO.tell()`:
`self._orig_file_size - self._left - len(self._readbuffer) + self._offset`. -/
def partTell (s : PartState) : Int :=
  (s.origFileSize : Int) - s.left - s.readbuffer.length + s.offset

/-- `ZipFilePartRO.seek(offset, whence)`: compute the clamped target
position; when it falls inside the buffered window, move the buffer offset
and return `tell()`.  On every other path the source next evaluates
`self._compress_type == ZIP_STORED` — but `_compress_type` is never
assigned (its assignment in `__init__` is commented out), so the access
raises `AttributeError` before the stored-method fast seek, the
reset-and-replay backward path, or the read-and-discard loop can run. -/
def partSeek (s : PartState) (offset : Int) (whence : Nat) :
    Except Err (Int × PartState) :=
  let currPos := partTell s
  if whence ≠ 0 ∧ whence ≠ 1 ∧ whence ≠ 2 then .error .valueErrorWhence
  else
    let np0 : Int :=
      if whence = 0 then offset
      else if whence = 1 then currPos + offset
      else (s.origFileSize : Int) + offset
    let np1 : Int := if np0 > (s.origFileSize : Int) then s.origFileSize else np0
    let newPos : Int := if np1 < 0 then 0 else np1
    let readOffset := newPos - currPos
    let buffOffset := readOffset + (s.offset : Int)
    if 0 ≤ buffOffset ∧ buffOffset < (s.readbuffer.length : Int) then
      let s1 := { s with offset := buffOffset.toNat }
      .ok (partTell s1, s1)
    else .error .attributeError

/-- `ZipFilePartRO.close()`: pass the close on to the shared file handle
(`_SharedFileRO.close` is a no-op when already closed, else it fires the
release callback `ZipFileRO._close`). -/
def partClose (z : ZipState) (p : PartState) : Except Err (PartState × ZipState) :=
  if p.closeFileobj ∧ p.shared.isOpen then
    match zipCloseRef z with
    | .error e => .error e
    | .ok z1 => .ok ({ p with shared := { p.shared with isOpen := false } }, z1)
  else .ok (p, z)

/-- The header-validation body of `ZipFileRO.open` (the `try:` block run
after the reference count has been incremented): skip and validate the
local file header, reject the unsupported flag bits, compare the header
filename with the directory filename, and construct the entry reader. -/
def openBody (data : Bytes) (seekable : Bool) (zinfo : ZipInfoRO)
    (sh0 : SharedState) : Except Err PartState :=
  match sharedRead data sh0 fileHeaderSize with
  | .error e => .error e
  | .ok (fheader, sh1) =>
    if fheader.length ≠ fileHeaderSize then .error .badZipTruncatedHeader
    else if fheader.take 4 ≠ fileHeaderString then .error .badZipBadHeaderMagic
    else
      let filenameLength := u16 fheader 26
      match sharedRead data sh1 filenameLength with
      | .error e => .error e
      | .ok (fname, sh2) =>
        let extraLength := u16 fheader 28
        let sh3 := if extraLength ≠ 0 then
            { sh2 with pos := sh2.pos + extraLength } else sh2
        if zinfo.flagBits &&& MASK_COMPRESSED_PATCH ≠ 0 then .error .notImplPatch
        else if zinfo.flagBits &&& MASK_STRONG_ENCRYPTION ≠ 0 then
          .error .notImplStrongEnc
        else
          let fnameStr := decodeName (u16 fheader 6) fname
          if fnameStr ≠ zinfo.filename then .error .badZipNameMismatch
          else if zinfo.flagBits &&& MASK_ENCRYPTED ≠ 0 then .error .notImplEncrypted
          else partInit sh3 zinfo true seekable

/-- `ZipFileRO.open(name)`: fail on a closed handle, look the name up
(`KeyError` on a miss), increment the shared reference count, build a
shared-file view at the entry's header offset, and validate; any failure
in the body closes that view (restoring the reference count) before the
error propagates. -/
def openEntry (data : Bytes) (z : ZipState) (name : Bytes) :
    Except Err PartState × ZipState :=
  if z.fileOpen = false then (.error .valueErrorClosed, z)
  else
    match lookupName z.nameToInfo name with
    | none => (.error .keyError, z)
    | some zinfo =>
      let z1 := { z with fileRefCount := z.fileRefCount + 1 }
      let sh0 : SharedState := { pos := zinfo.headerOffset, isOpen := true }
      match openBody data z.seekable zinfo sh0 with
      | .ok part => (.ok part, z1)
      | .error e =>
        match zipCloseRef z1 with
        | .ok z2 => (.error e, z2)
        | .error e2 => (.error e2, z1)

/-- Little-endian encoding of a 16-bit value (test-fixture helper). -/
def u16b (n : Nat) : Bytes := [n % 256, n / 256 % 256]

/-- Little-endian encoding of a 32-bit value (test-fixture helper). -/
def u32b (n : Nat) : Bytes :=
  [n % 256, n / 256 % 256, n / 65536 % 256, n / 16777216 % 256]

/-- A stored-method local file header (fixture). -/
def mkLocalHeader (flags method crc csize usize : Nat) (name : Bytes) : Bytes :=
  fileHeaderString ++ [20, 0] ++ u16b flags ++ u16b method ++ u16b 0 ++ u16b 0 ++
    u32b crc ++ u32b csize ++ u32b usize ++ u16b name.length ++ u16b 0 ++ name

/-- A central-directory entry record (fixture). -/
def mkCentralEntry (flags method csize usize off : Nat) (name : Bytes) : Bytes :=
  centralDirString ++ [20, 0, 20, 0] ++ u16b flags ++ u16b method ++ u16b 0 ++
    u16b 0 ++ u32b 0 ++ u32b csize ++ u32b usize ++ u16b name.length ++ u16b 0 ++
    u16b 0 ++ u16b 0 ++ u16b 0 ++ u32b 0 ++ u32b off ++ name

/-- An end-of-central-directory record (fixture). -/
def mkEocd (count sizeCd offsetCd commentLen : Nat) : Bytes :=
  endArchiveString ++ u16b 0 ++ u16b 0 ++ u16b count ++ u16b count ++
    u32b sizeCd ++ u32b offsetCd ++ u16b commentLen

/-- Bytes of the name `a.txt`. -/
def nameAtxt : Bytes := [97, 46, 116, 120, 116]

/-- Bytes of the name `dir/b.bin`. -/
def nameBbin : Bytes := [100, 105, 114, 47, 98, 46, 98, 105, 110]

/-- Bytes of `b"hello"`. -/
def helloBytes : Bytes := [104, 101, 108, 108, 111]

/-- The first 79 bytes of the two-entry archive: the `a.txt` local header
and payload, then the `dir/b.bin` local header. -/
def archiveTwoHead : Bytes :=
  mkLocalHeader 0 0 0 5 5 nameAtxt ++ helloBytes ++
    mkLocalHeader 0 0 0 5000 5000 nameBbin

/-- The 5000 zero payload bytes of `dir/b.bin`. -/
def archiveTwoZeros : Bytes := List.replicate 5000 0

/-- The last 128 bytes of the two-entry archive: the two central-directory
entries (106 bytes) and the EOCD record. -/
def archiveTwoTail : Bytes :=
  mkCentralEntry 0 0 5 5 0 nameAtxt ++
    mkCentralEntry 0 0 5000 5000 40 nameBbin ++
    mkEocd 2 106 5079 0

/-- The specified two-entry stored archive: `a.txt` holding `b"hello"`
followed by `dir/b.bin` holding 5000 zero bytes (local headers at offsets
0 and 40, central directory of 106 bytes at offset 5079, 5207 bytes in
all). -/
def archiveTwo : Bytes :=
  archiveTwoHead ++ (archiveTwoZeros ++ archiveTwoTail)

/-- A one-entry archive whose central directory deliberately declares a
compressed size (10) larger than the uncompressed size (5), with 10
physical payload bytes present: used to show reads stop at the declared
uncompressed size. -/
def archiveSurplus : Bytes :=
  mkLocalHeader 0 0 0 10 10 nameAtxt ++ (helloBytes ++ [88, 88, 88, 88, 88]) ++
    mkCentralEntry 0 0 10 5 0 nameAtxt ++
    mkEocd 1 51 45 0

/-- Scenario runner: construct the archive handle and list its names. -/
def runNamelist (data : Bytes) : Except Err (List Bytes) :=
  match zipInit data false true with
  | .error e => .error e
  | .ok z => namelistE z

/-- Scenario runner: construct the archive handle, open `name`, and read
the entry to end of stream. -/
def runOpenRead (data name : Bytes) : Except Err Bytes :=
  match zipInit data false true with
  | .error e => .error e
  | .ok z =>
    match openEntry data z name with
    | (.error e, _) => .error e
    | (.ok p, _) =>
      match partReadAll data p with
      | .error e => .error e
      | .ok (b, _) => .ok b

/-- Scenario runner: construct the archive handle, open `name`, and issue
`seek(off, whence)` on the fresh reader. -/
def runOpenSeek (data name : Bytes) (off : Int) (whence : Nat) : Except Err Int :=
  match zipInit data false true with
  | .error e => .error e
  | .ok z =>
    match openEntry data z name with
    | (.error e, _) => .error e
    | (.ok p, _) =>
      match partSeek p off whence with
      | .error e => .error e
      | .ok (r, _) => .ok r

/-! Basic facts about `readAt` and the archive fixtures. -/

theorem drop_of_ge (p s : Bytes) (pos : Nat) (h : p.length ≤ pos) :
    (p ++ s).drop pos = s.drop (pos - p.length) := by
  rw [List.drop_append_eq_append_drop, List.drop_eq_nil_of_le h, List.nil_append]

theorem readAt_right (p s : Bytes) (pos n : Nat) (h : p.length ≤ pos) :
    readAt (p ++ s) pos n = readAt s (pos - p.length) n := by
  unfold readAt
  rw [drop_of_ge p s pos h]

theorem readAt_left (p s : Bytes) (pos n : Nat) (h : pos + n ≤ p.length) :
    readAt (p ++ s) pos n = readAt p pos n := by
  unfold readAt
  rw [List.drop_append_eq_append_drop, List.take_append_eq_append_take]
  have h0 : n - (p.drop pos).length = 0 := by
    rw [List.length_drop]
    omega
  rw [h0, List.take_zero, List.append_nil]

theorem archiveTwoHead_len : archiveTwoHead.length = 79 := by decide

theorem archiveTwoZeros_len : archiveTwoZeros.length = 5000 := by
  rw [archiveTwoZeros, List.length_replicate]

theorem archiveTwoTail_len : archiveTwoTail.length = 128 := by decide

theorem archiveTwo_len : archiveTwo.length = 5207 := by
  rw [archiveTwo, List.length_append, List.length_append, archiveTwoHead_len,
    archiveTwoZeros_len, archiveTwoTail_len]

theorem archiveTwo_drop_hi (pos : Nat) (h : 5079 ≤ pos) :
    archiveTwo.drop pos = archiveTwoTail.drop (pos - 5079) := by
  have h1 : archiveTwo.drop pos =
      (archiveTwoZeros ++ archiveTwoTail).drop (pos - 79) := by
    rw [archiveTwo]
    exact drop_of_ge _ _ _ (by rw [archiveTwoHead_len]; omega)
  have h2 : (archiveTwoZeros ++ archiveTwoTail).drop (pos - 79) =
      archiveTwoTail.drop (pos - 79 - 5000) := by
    have h0 := drop_of_ge archiveTwoZeros archiveTwoTail (pos - 79)
      (by rw [archiveTwoZeros_len]; omega)
    rw [archiveTwoZeros_len] at h0
    exact h0
  have h3 : pos - 79 - 5000 = pos - 5079 := by omega
  rw [h3] at h2
  exact h1.trans h2

theorem archiveTwo_readAt_hi (pos n : Nat) (h : 5079 ≤ pos) :
    readAt archiveTwo pos n = readAt archiveTwoTail (pos - 5079) n := by
  unfold readAt
  exact congrArg (List.take n) (archiveTwo_drop_hi pos h)

theorem archiveTwo_readAt_lo (pos n : Nat) (h : pos + n ≤ 79) :
    readAt archiveTwo pos n = readAt archiveTwoHead pos n := by
  rw [archiveTwo]
  exact readAt_left _ _ _ _ (by rw [archiveTwoHead_len]; omega)

/-! Evaluation of the engine on the two-entry archive. -/

/-- The EOCD record recovered from `archiveTwo`. -/
def endrecTwo : EndArchive :=
  { signature := [80, 75, 5, 6], diskNumber := 0, diskStart := 0,
    entriesThisDisk := 2, entriesTotal := 2, size := 106, offset := 5079,
    commentSize := 0, comment := [], location := 5185 }

/-- The parsed metadata of `a.txt` in `archiveTwo`. -/
def infoAtxt : ZipInfoRO :=
  { filename := nameAtxt, flagBits := 0, headerOffset := 0,
    compressSize := 5, fileSize := 5 }

/-- The parsed metadata of `dir/b.bin` in `archiveTwo`. -/
def infoBbin : ZipInfoRO :=
  { filename := nameBbin, flagBits := 0, headerOffset := 40,
    compressSize := 5000, fileSize := 5000 }

/-- The archive state after constructing a handle over `archiveTwo`. -/
def zstateTwo : ZipState :=
  { nameToInfo := [(nameAtxt, infoAtxt), (nameBbin, infoBbin)],
    startDir := 5079, filePassed := false, fileOpen := true,
    fileRefCount := 1, physCloseCount := 0, seekable := true }

/-- Unfolding of `_extract_end_archive` on the fast path: when the
fast-path condition holds, the result is the fast record passed through
the ZIP64 probe. -/
theorem extractEndArchive_eq_fast (data : Bytes) (hcond : fastPathCond data) :
    extractEndArchive data =
      (endArchiveUpdateZip64 data (-(endArchiveSize : Int))
        { unpackEndArchive (data.drop (data.length - endArchiveSize)) with
          comment := [], location := data.length - endArchiveSize }).map some := by
  have hge : ¬ data.length < endArchiveSize := by
    have := hcond.1
    omega
  unfold extractEndArchive fastEndArchive
  rw [if_neg hge, if_pos hcond]

/-- The ZIP64 probe leaves the record unchanged when the 20 bytes before
the EOCD record do not decode as a ZIP64 locator (wrong length or wrong
signature). -/
theorem endArchiveUpdateZip64_mismatch (data : Bytes) (off : Int)
    (endrec : EndArchive) (pos1 : Nat)
    (hpos : (data.length : Int) + off - endArchive64LocatorSize = pos1)
    (hsig : (readAt data pos1 endArchive64LocatorSize).take 4 ≠
      endArchive64LocatorString) :
    endArchiveUpdateZip64 data off endrec = .ok endrec := by
  unfold endArchiveUpdateZip64
  dsimp only
  rw [hpos]
  rw [if_neg (by omega : ¬ (pos1 : Int) < 0), Int.toNat_natCast]
  by_cases hlen : (readAt data pos1 endArchive64LocatorSize).length =
      endArchive64LocatorSize
  · rw [if_neg (not_not_intro hlen), if_pos hsig]
  · rw [if_pos hlen]

/-- The ZIP64 probe position of `archiveTwo` does not hold a locator
signature. -/
theorem zip64_archiveTwo :
    endArchiveUpdateZip64 archiveTwo (-(endArchiveSize : Int)) endrecTwo =
      .ok endrecTwo := by
  refine endArchiveUpdateZip64_mismatch archiveTwo _ endrecTwo 5165 ?_ ?_
  · rw [archiveTwo_len]
    decide
  · have h := archiveTwo_readAt_hi 5165 endArchive64LocatorSize (by omega)
    rw [h]
    decide

theorem archiveTwo_drop_5185 : archiveTwo.drop 5185 = mkEocd 2 106 5079 0 :=
  (archiveTwo_drop_hi 5185 (by omega)).trans (by decide)

theorem extract_archiveTwo :
    extractEndArchive archiveTwo = .ok (some endrecTwo) := by
  have hL : archiveTwo.length - endArchiveSize = 5185 := by
    rw [archiveTwo_len]
    decide
  have hdrop : archiveTwo.drop (archiveTwo.length - endArchiveSize) =
      mkEocd 2 106 5079 0 := by
    rw [hL]
    exact archiveTwo_drop_5185
  have hcond : fastPathCond archiveTwo := by
    refine ⟨by rw [archiveTwo_len]; decide, ?_, ?_⟩
    · rw [hdrop]
      decide
    · rw [hdrop]
      decide
  have h1 := extractEndArchive_eq_fast archiveTwo hcond
  have hrec : ({ unpackEndArchive (archiveTwo.drop (archiveTwo.length -
      endArchiveSize)) with
      comment := ([] : Bytes), location := archiveTwo.length - endArchiveSize } :
      EndArchive) = endrecTwo := by
    rw [hdrop, hL]
    decide
  rw [hrec] at h1
  rw [h1, zip64_archiveTwo]
  rfl

/-- Unfolding of `_read_contents` once the EOCD record is known. -/
theorem readContents_eval (data : Bytes) (endrec : EndArchive)
    (hx : extractEndArchive data = .ok (some endrec)) :
    readContents data = readCentralDir data endrec := by
  unfold readContents
  rw [hx]

/-- Unfolding of the central-directory phase once the scratch-buffer read
is known. -/
theorem readCentralDir_eval (data : Bytes) (endrec : EndArchive) (cd : Bytes)
    (hnn : ¬ ((endrec.offset : Int) + concatOffset endrec < 0))
    (hcd : readAt data ((endrec.offset : Int) + concatOffset endrec).toNat
      endrec.size = cd) :
    readCentralDir data endrec =
      (parseLoop cd endrec.size (concatOffset endrec) 0 []).map
        (fun m => ⟨m, (endrec.offset : Int) + concatOffset endrec⟩) := by
  unfold readCentralDir
  dsimp only
  rw [if_neg hnn, hcd]

/-- Unfolding of the archive-handle constructor once the directory parse
is known. -/
theorem zipInit_eval (data : Bytes) (fp sk : Bool) (c : ContentsRO)
    (h : readContents data = .ok c) :
    zipInit data fp sk = .ok
      { nameToInfo := c.nameToInfo, startDir := c.startDir, filePassed := fp,
        fileOpen := true, fileRefCount := 1, physCloseCount := 0,
        seekable := sk } := by
  unfold zipInit
  rw [h]

/-- The central-directory bytes of `archiveTwo`. -/
def cdTwoBytes : Bytes :=
  mkCentralEntry 0 0 5 5 0 nameAtxt ++ mkCentralEntry 0 0 5000 5000 40 nameBbin

/-- The parsed entry table of `archiveTwo`. -/
def entriesTwo : List (Bytes × ZipInfoRO) :=
  [(nameAtxt, infoAtxt), (nameBbin, infoBbin)]

theorem parseLoop_cdTwo : parseLoop cdTwoBytes 106 0 0 [] = .ok entriesTwo := by
  rw [parseLoop]
  simp +decide [parseLoop, entriesTwo, infoAtxt, infoBbin]

theorem readContents_archiveTwo :
    readContents archiveTwo = .ok ⟨entriesTwo, 5079⟩ := by
  have h1 := readContents_eval archiveTwo endrecTwo extract_archiveTwo
  have ht : ((endrecTwo.offset : Int) + concatOffset endrecTwo).toNat = 5079 := by
    decide
  have hsz : endrecTwo.size = 106 := by decide
  have hcd : readAt archiveTwo ((endrecTwo.offset : Int) +
      concatOffset endrecTwo).toNat endrecTwo.size = cdTwoBytes := by
    rw [ht, hsz]
    have h2 := archiveTwo_readAt_hi 5079 106 (by omega)
    rw [h2]
    decide
  have h3 := readCentralDir_eval archiveTwo endrecTwo cdTwoBytes (by decide) hcd
  rw [h1, h3]
  have hc0 : concatOffset endrecTwo = 0 := by decide
  rw [hc0, hsz, parseLoop_cdTwo]
  decide

theorem zipInit_archiveTwo : zipInit archiveTwo false true = .ok zstateTwo := by
  have h := zipInit_eval archiveTwo false true ⟨entriesTwo, 5079⟩
    readContents_archiveTwo
  rw [h]
  decide

/-- The fresh entry reader returned by `open("dir/b.bin")` on `archiveTwo`:
payload starts at byte 79, sizes 5000. -/
def partBbin : PartState :=
  { shared := { pos := 79, isOpen := true }, closeFileobj := true,
    compressLeft := 5000, left := 5000, eof := false, readbuffer := [],
    offset := 0, origCompressStart := 79, origCompressSize := 5000,
    origFileSize := 5000 }

/-- The fresh entry reader returned by `open("a.txt")` on `archiveTwo`:
payload starts at byte 35, sizes 5. -/
def partAtxt : PartState :=
  { shared := { pos := 35, isOpen := true }, closeFileobj := true,
    compressLeft := 5, left := 5, eof := false, readbuffer := [],
    offset := 0, origCompressStart := 35, origCompressSize := 5,
    origFileSize := 5 }

theorem openEntry_archiveTwo_b :
    openEntry archiveTwo zstateTwo nameBbin =
      (.ok partBbin, { zstateTwo with fileRefCount := 2 }) := by
  decide

theorem openEntry_archiveTwo_a :
    openEntry archiveTwo zstateTwo nameAtxt =
      (.ok partAtxt, { zstateTwo with fileRefCount := 2 }) := by
  decide

theorem partSeek_bbin_4999 :
    partSeek partBbin 4999 0 = .error .attributeError := by
  decide

/-- One completed step of the unbounded-read loop. -/
theorem readAllAux_step (data : Bytes) (s : PartState) (acc d : Bytes)
    (s' : PartState) (he : s.eof = false)
    (h : partRead1 data s MAX_N = .ok (d, s')) :
    readAllAux data s acc = readAllAux data s' (acc ++ d) := by
  rw [readAllAux, dif_neg (by simp [he])]
  split
  · rename_i e heq
    rw [heq] at h
    exact absurd h (by simp)
  · rename_i d0 s0 heq
    rw [heq] at h
    obtain ⟨rfl, rfl⟩ := (by simpa using h : _ ∧ _)
    rfl

/-- Termination of the unbounded-read loop at end of stream. -/
theorem readAllAux_done (data : Bytes) (s : PartState) (acc : Bytes)
    (he : s.eof = true) : readAllAux data s acc = .ok (acc, s) := by
  rw [readAllAux, dif_pos he]

/-- Termination of the bounded-read loop (`n` exhausted or end of
stream). -/
theorem readNAux_done (data : Bytes) (s : PartState) (n : Nat) (buf : Bytes)
    (hg : n = 0 ∨ s.eof = true) : readNAux data s n buf = .ok (buf, s) := by
  rw [readNAux, dif_pos hg]

/-- One completed step of the bounded-read loop that consumes the whole
chunk. -/
theorem readNAux_step (data : Bytes) (s : PartState) (n : Nat) (buf d : Bytes)
    (s' : PartState) (hg : ¬ (n = 0 ∨ s.eof = true))
    (h : partRead1 data s n = .ok (d, s')) (hlt : ¬ n < d.length) :
    readNAux data s n buf = readNAux data s' (n - d.length) (buf ++ d) := by
  rw [readNAux, dif_neg hg]
  split
  · rename_i e heq
    rw [heq] at h
    exact absurd h (by simp)
  · rename_i d0 s0 heq
    rw [heq] at h
    obtain ⟨rfl, rfl⟩ := (by simpa using h : _ ∧ _)
    rw [if_neg hlt]

/-- One step of the bounded-read loop that overshoots: the surplus is
buffered and the loop breaks. -/
theorem readNAux_break (data : Bytes) (s : PartState) (n : Nat) (buf d : Bytes)
    (s' : PartState) (hg : ¬ (n = 0 ∨ s.eof = true))
    (h : partRead1 data s n = .ok (d, s')) (hlt : n < d.length) :
    readNAux data s n buf = .ok (buf ++ d.take n,
      { s' with readbuffer := d, offset := n }) := by
  rw [readNAux, dif_neg hg]
  split
  · rename_i e heq
    rw [heq] at h
    exact absurd h (by simp)
  · rename_i d0 s0 heq
    rw [heq] at h
    obtain ⟨rfl, rfl⟩ := (by simpa using h : _ ∧ _)
    rw [if_pos hlt]

/-- The `a.txt` reader after reading to end of stream. -/
def partAtxtDone : PartState :=
  { shared := { pos := 40, isOpen := true }, closeFileobj := true,
    compressLeft := 0, left := 0, eof := true, readbuffer := [],
    offset := 0, origCompressStart := 35, origCompressSize := 5,
    origFileSize := 5 }

theorem partReadAll_atxt :
    partReadAll archiveTwo partAtxt = .ok (helloBytes, partAtxtDone) := by
  have hr1 : partRead1 archiveTwo partAtxt MAX_N = .ok (helloBytes,
      partAtxtDone) := by
    decide
  have hs0 : ({ partAtxt with readbuffer := [], offset := 0 } : PartState) =
      partAtxt := by decide
  unfold partReadAll
  rw [hs0]
  rw [readAllAux_step archiveTwo partAtxt _ helloBytes partAtxtDone
    (by decide) hr1]
  rw [readAllAux_done archiveTwo partAtxtDone _ (by decide)]
  decide

/-- C1: on the specified two-entry stored archive (`a.txt` → `b"hello"`,
`dir/b.bin` → 5000 zero bytes), `namelist()` does return both names in
directory order and `open("a.txt").read()` does return `b"hello"` — but
`open("dir/b.bin")` followed by `seek(4999)` does not position the reader
for a 1-byte read: it raises `AttributeError`, because `ZipFilePartRO.seek`
reads `self._compress_type` (archive_zip.py line 1170) whose assignment in
`__init__` is commented out (line 886).  The claimed scenario therefore
fails on the code at the seek step. -/
theorem claimC1_seek_attribute_error :
    runNamelist archiveTwo = .ok [nameAtxt, nameBbin] ∧
      runOpenRead archiveTwo nameAtxt = .ok helloBytes ∧
      runOpenSeek archiveTwo nameBbin 4999 0 = .error .attributeError := by
  refine ⟨?_, ?_, ?_⟩
  · unfold runNamelist
    rw [zipInit_archiveTwo]
    decide
  · unfold runOpenRead
    rw [zipInit_archiveTwo]
    dsimp only
    rw [openEntry_archiveTwo_a]
    dsimp only
    rw [partReadAll_atxt]
  · unfold runOpenSeek
    rw [zipInit_archiveTwo]
    dsimp only
    rw [openEntry_archiveTwo_b]
    dsimp only
    rw [partSeek_bbin_4999]

/-! Evaluation of the engine on the surplus archive (compressed size 10
declared against uncompressed size 5, with 10 physical payload bytes). -/

/-- The EOCD record recovered from `archiveSurplus`. -/
def endrecSurplus : EndArchive :=
  { signature := [80, 75, 5, 6], diskNumber := 0, diskStart := 0,
    entriesThisDisk := 1, entriesTotal := 1, size := 51, offset := 45,
    commentSize := 0, comment := [], location := 96 }

/-- The parsed metadata of `a.txt` in `archiveSurplus`. -/
def infoSurplus : ZipInfoRO :=
  { filename := nameAtxt, flagBits := 0, headerOffset := 0,
    compressSize := 10, fileSize := 5 }

/-- The archive state after constructing a handle over `archiveSurplus`. -/
def zstateSurplus : ZipState :=
  { nameToInfo := [(nameAtxt, infoSurplus)], startDir := 45,
    filePassed := false, fileOpen := true, fileRefCount := 1,
    physCloseCount := 0, seekable := true }

/-- The fresh entry reader returned by `open("a.txt")` on
`archiveSurplus`. -/
def partSurplus : PartState :=
  { shared := { pos := 35, isOpen := true }, closeFileobj := true,
    compressLeft := 10, left := 5, eof := false, readbuffer := [],
    offset := 0, origCompressStart := 35, origCompressSize := 10,
    origFileSize := 5 }

/-- The surplus reader after reading to end of stream: all 10 physical
bytes were consumed, 5 logical bytes were delivered. -/
def partSurplusDone : PartState :=
  { shared := { pos := 45, isOpen := true }, closeFileobj := true,
    compressLeft := 0, left := 0, eof := true, readbuffer := [],
    offset := 0, origCompressStart := 35, origCompressSize := 10,
    origFileSize := 5 }

/-- The surplus reader after a single `read(2)`: the 5 logical bytes are
buffered, the buffer offset sits at 2. -/
def partSurplusRead2 : PartState :=
  { shared := { pos := 45, isOpen := true }, closeFileobj := true,
    compressLeft := 0, left := 0, eof := true, readbuffer := helloBytes,
    offset := 2, origCompressStart := 35, origCompressSize := 10,
    origFileSize := 5 }

theorem readContents_archiveSurplus :
    readContents archiveSurplus = .ok ⟨[(nameAtxt, infoSurplus)], 45⟩ := by
  have hx : extractEndArchive archiveSurplus = .ok (some endrecSurplus) := by
    decide
  have h1 := readContents_eval archiveSurplus endrecSurplus hx
  have hcd : readAt archiveSurplus ((endrecSurplus.offset : Int) +
      concatOffset endrecSurplus).toNat endrecSurplus.size =
      mkCentralEntry 0 0 10 5 0 nameAtxt := by
    decide
  have h3 := readCentralDir_eval archiveSurplus endrecSurplus
    (mkCentralEntry 0 0 10 5 0 nameAtxt) (by decide) hcd
  have hparse : parseLoop (mkCentralEntry 0 0 10 5 0 nameAtxt)
      endrecSurplus.size (concatOffset endrecSurplus) 0 [] =
      .ok [(nameAtxt, infoSurplus)] := by
    rw [parseLoop]
    simp +decide [parseLoop, infoSurplus]
  rw [h1, h3, hparse]
  decide

theorem zipInit_archiveSurplus :
    zipInit archiveSurplus false true = .ok zstateSurplus := by
  have h := zipInit_eval archiveSurplus false true ⟨[(nameAtxt, infoSurplus)], 45⟩
    readContents_archiveSurplus
  rw [h]
  decide

theorem openEntry_archiveSurplus :
    openEntry archiveSurplus zstateSurplus nameAtxt =
      (.ok partSurplus, { zstateSurplus with fileRefCount := 2 }) := by
  decide

theorem partReadAll_surplus :
    partReadAll archiveSurplus partSurplus = .ok (helloBytes, partSurplusDone) := by
  have hr1 : partRead1 archiveSurplus partSurplus MAX_N =
      .ok (helloBytes, partSurplusDone) := by
    decide
  have hs0 : ({ partSurplus with readbuffer := [], offset := 0 } : PartState) =
      partSurplus := by decide
  unfold partReadAll
  rw [hs0]
  rw [readAllAux_step archiveSurplus partSurplus _ helloBytes partSurplusDone
    (by decide) hr1]
  rw [readAllAux_done archiveSurplus partSurplusDone _ (by decide)]
  decide

theorem partRead2_surplus :
    partReadN archiveSurplus partSurplus 2 = .ok ([104, 101], partSurplusRead2) := by
  have hr1 : partRead1 archiveSurplus partSurplus 2 =
      .ok (helloBytes, partSurplusDone) := by
    decide
  have hs0 : ({ partSurplus with readbuffer := [], offset := 0 } : PartState) =
      partSurplus := by decide
  unfold partReadN
  rw [if_neg (by decide)]
  rw [hs0]
  rw [show (2 + partSurplus.offset - List.length partSurplus.readbuffer) = 2
    from by decide]
  rw [show List.drop partSurplus.offset partSurplus.readbuffer = [] from by decide]
  dsimp only
  rw [readNAux_break archiveSurplus partSurplus 2 [] helloBytes partSurplusDone
    (by decide) hr1 (by decide)]
  decide

theorem partReadPastEof_surplus :
    partReadN archiveSurplus partSurplusDone 10 = .ok ([], partSurplusDone) := by
  have hs0 : ({ partSurplusDone with readbuffer := [], offset := 0 } :
      PartState) = partSurplusDone := by decide
  unfold partReadN
  rw [if_neg (by decide)]
  rw [hs0]
  rw [show (10 + partSurplusDone.offset - List.length partSurplusDone.readbuffer) = 10
    from by decide]
  rw [show List.drop partSurplusDone.offset partSurplusDone.readbuffer = []
    from by decide]
  dsimp only
  rw [readNAux_done archiveSurplus partSurplusDone 10 [] (by decide)]

/-- C2: reads are indeed bounded by the declared uncompressed size and a
read at end-of-stream returns empty without raising — but the claimed seek
clamping does not happen: a seek whose clamped target falls outside the
buffered window (here: past-the-end and before-the-start seeks on a
drained reader, whose buffer is empty) raises `AttributeError` instead of
clamping the position, because `ZipFilePartRO.seek` dereferences the
never-assigned `self._compress_type`.  Concretely, on an entry whose
central directory declares compressed size 10 but uncompressed size 5 with
10 physical bytes present: `read()` returns exactly the 5 declared bytes,
a subsequent `read(10)` returns empty, and `seek(7)` / `seek(-3)` raise. -/
theorem claimC2_read_bounded_seek_raises :
    runOpenRead archiveSurplus nameAtxt = .ok helloBytes ∧
      partReadAll archiveSurplus partSurplus = .ok (helloBytes, partSurplusDone) ∧
      partReadN archiveSurplus partSurplusDone 10 = .ok ([], partSurplusDone) ∧
      partSeek partSurplusDone 7 0 = .error .attributeError ∧
      partSeek partSurplusDone (-3) 0 = .error .attributeError := by
  refine ⟨?_, partReadAll_surplus, partReadPastEof_surplus, by decide, by decide⟩
  unfold runOpenRead
  rw [zipInit_archiveSurplus]
  dsimp only
  rw [openEntry_archiveSurplus]
  dsimp only
  rw [partReadAll_surplus]

/-- C3: seeking to the current position is a no-op only when the target
falls inside the read-ahead buffer; on a fresh reader (empty buffer) the
same seek raises `AttributeError`, and a backward seek outside the buffer
raises `AttributeError` as well — the documented reset-counters /
clear-buffer / reposition-and-replay path is unreachable because the
branch guard dereferences the never-assigned `self._compress_type`
(archive_zip.py line 1170).  Concretely: after `read(2)` (buffer `hello`,
offset 2) `seek(2)` is a no-op returning 2; a fresh reader raises on
`seek(0)`; a drained reader raises on the backward `seek(2)`. -/
theorem claimC3_seek_replay_unreachable :
    partSeek partSurplusRead2 2 0 = .ok (2, partSurplusRead2) ∧
      partReadN archiveSurplus partSurplus 2 = .ok ([104, 101], partSurplusRead2) ∧
      runOpenSeek archiveSurplus nameAtxt 0 0 = .error .attributeError ∧
      partSeek partSurplusDone 2 0 = .error .attributeError := by
  refine ⟨by decide, partRead2_surplus, ?_, by decide⟩
  unfold runOpenSeek
  rw [zipInit_archiveSurplus]
  dsimp only
  rw [openEntry_archiveSurplus]
  dsimp only
  rw [show partSeek partSurplus 0 0 = .error .attributeError from by decide]

/-! Reference-count behaviour of `_close`, `open`, `close`. -/

/-- `_close` on a live reference decrements the count and physically
closes the descriptor exactly when the count reaches zero on a
self-opened source. -/
theorem zipCloseRef_succ (z : ZipState) (h : 1 ≤ z.fileRefCount) :
    zipCloseRef z = .ok { z with
      fileRefCount := z.fileRefCount - 1,
      physCloseCount := if z.fileRefCount - 1 = 0 ∧ z.filePassed = false then
        z.physCloseCount + 1 else z.physCloseCount } := by
  unfold zipCloseRef
  rw [if_neg (by omega)]

/-- Any failing `open` leaves the reference count (and, from a live
handle, the physical-close count) exactly as before the call. -/
theorem openEntry_error_refCount (data : Bytes) (z : ZipState) (name : Bytes)
    (e : Err) (z' : ZipState)
    (h : openEntry data z name = (.error e, z')) :
    z'.fileRefCount = z.fileRefCount ∧
      (1 ≤ z.fileRefCount → z'.physCloseCount = z.physCloseCount) ∧
      z'.nameToInfo = z.nameToInfo ∧ z'.fileOpen = z.fileOpen := by
  unfold openEntry at h
  split at h
  · obtain ⟨rfl, rfl⟩ := (by simpa using h : _ ∧ _)
    simp
  · split at h
    · obtain ⟨rfl, rfl⟩ := (by simpa using h : _ ∧ _)
      simp
    · rename_i zinfo hlook
      dsimp only at h
      split at h
      · exact absurd h (by simp)
      · rename_i e0 hbody
        split at h
        · rename_i z2 hclose
          rw [zipCloseRef_succ _ (by simp)] at hclose
          obtain ⟨rfl, rfl⟩ := (by simpa using h : _ ∧ _)
          obtain rfl := (by simpa using hclose : _)
          refine ⟨by simp, ?_, by simp, by simp⟩
          intro h1
          simp only
          rw [if_neg (by omega)]
        · rename_i e2 hclose
          rw [zipCloseRef_succ _ (by simp)] at hclose
          exact absurd hclose (by simp)

/-- A successfully constructed entry reader implies the entry's encrypted
flag bit is clear: the `open` body checks it before construction. -/
theorem openBody_ok_not_encrypted (data : Bytes) (sk : Bool) (zinfo : ZipInfoRO)
    (sh0 : SharedState) (part : PartState)
    (h : openBody data sk zinfo sh0 = .ok part) :
    zinfo.flagBits &&& MASK_ENCRYPTED = 0 := by
  unfold openBody at h
  split at h
  · exact absurd h (by simp)
  · dsimp only at h
    split at h
    · exact absurd h (by simp)
    · split at h
      · exact absurd h (by simp)
      · split at h
        · exact absurd h (by simp)
        · split at h
          · exact absurd h (by simp)
          · split at h
            · exact absurd h (by simp)
            · split at h
              · exact absurd h (by simp)
              · split at h
                · exact absurd h (by simp)
                · rename_i henc
                  exact not_not.mp henc

/-- A successful `open` increments the reference count by exactly one and
changes nothing else in the archive state. -/
theorem openEntry_ok_refCount (data : Bytes) (z : ZipState) (name : Bytes)
    (p : PartState) (z' : ZipState)
    (h : openEntry data z name = (.ok p, z')) :
    z' = { z with fileRefCount := z.fileRefCount + 1 } := by
  unfold openEntry at h
  split at h
  · exact absurd h (by simp)
  · split at h
    · exact absurd h (by simp)
    · rename_i zinfo hlook
      dsimp only at h
      split at h
      · obtain ⟨_, rfl⟩ := (by simpa using h : _ ∧ _)
        rfl
      · split at h
        · exact absurd h (by simp)
        · exact absurd h (by simp)

/-- Opening an entry whose encrypted flag bit is set always fails, and the
reference count is left unchanged. -/
theorem openEntry_encrypted_fails (data : Bytes) (z : ZipState) (name : Bytes)
    (zinfo : ZipInfoRO) (hopen : z.fileOpen = true)
    (hlook : lookupName z.nameToInfo name = some zinfo)
    (henc : zinfo.flagBits &&& MASK_ENCRYPTED ≠ 0) :
    ∃ e, (openEntry data z name).1 = .error e ∧
      (openEntry data z name).2.fileRefCount = z.fileRefCount := by
  rcases hx : openEntry data z name with ⟨r, z'⟩
  cases r with
  | ok p =>
    exfalso
    have h1 := hx
    unfold openEntry at h1
    rw [if_neg (by simp [hopen]), hlook] at h1
    dsimp only at h1
    split at h1
    · rename_i part hbody
      exact henc (openBody_ok_not_encrypted _ _ _ _ _ hbody)
    · rename_i e0 hbody
      split at h1
      · exact absurd h1 (by simp)
      · exact absurd h1 (by simp)
  | error e =>
    exact ⟨e, rfl, (openEntry_error_refCount data z name e z' hx).1⟩

/-- The central-directory parse loop rejects (via the `assert`) any record
whose compression-method field is not stored. -/
theorem parseLoop_method_reject (dataCd : Bytes) (sizeCd : Nat) (concat : Int)
    (total : Nat) (m : List (Bytes × ZipInfoRO)) (htotal : total < sizeCd)
    (hlen : (readAt dataCd total centralDirSize).length = centralDirSize)
    (hsig : (readAt dataCd total centralDirSize).take 4 = centralDirString)
    (hmethod : u16 (readAt dataCd total centralDirSize) 10 ≠ ZIP_STORED) :
    parseLoop dataCd sizeCd concat total m = .error .assertionError := by
  rw [parseLoop, dif_pos htotal]
  dsimp only
  rw [if_neg (not_not_intro hlen), if_neg (not_not_intro hsig), if_pos hmethod]

/-- A one-entry archive whose central directory sets the encrypted flag
bit (general-purpose bit 0) on the entry. -/
def archiveEnc : Bytes :=
  mkLocalHeader 0 0 0 5 5 nameAtxt ++ helloBytes ++
    mkCentralEntry 1 0 5 5 0 nameAtxt ++ mkEocd 1 51 40 0

/-- The parsed metadata of the encrypted-flag entry. -/
def infoEnc : ZipInfoRO :=
  { filename := nameAtxt, flagBits := 1, headerOffset := 0,
    compressSize := 5, fileSize := 5 }

/-- The archive state after constructing a handle over `archiveEnc`. -/
def zstateEnc : ZipState :=
  { nameToInfo := [(nameAtxt, infoEnc)], startDir := 40,
    filePassed := false, fileOpen := true, fileRefCount := 1,
    physCloseCount := 0, seekable := true }

/-- The EOCD record of the two 113-byte one-entry fixtures. -/
def endrecOne : EndArchive :=
  { signature := [80, 75, 5, 6], diskNumber := 0, diskStart := 0,
    entriesThisDisk := 1, entriesTotal := 1, size := 51, offset := 40,
    commentSize := 0, comment := [], location := 91 }

theorem readContents_archiveEnc :
    readContents archiveEnc = .ok ⟨[(nameAtxt, infoEnc)], 40⟩ := by
  have hx : extractEndArchive archiveEnc = .ok (some endrecOne) := by decide
  have h1 := readContents_eval archiveEnc endrecOne hx
  have hcd : readAt archiveEnc ((endrecOne.offset : Int) +
      concatOffset endrecOne).toNat endrecOne.size =
      mkCentralEntry 1 0 5 5 0 nameAtxt := by decide
  have h3 := readCentralDir_eval archiveEnc endrecOne
    (mkCentralEntry 1 0 5 5 0 nameAtxt) (by decide) hcd
  have hparse : parseLoop (mkCentralEntry 1 0 5 5 0 nameAtxt)
      endrecOne.size (concatOffset endrecOne) 0 [] =
      .ok [(nameAtxt, infoEnc)] := by
    rw [parseLoop]
    simp +decide [parseLoop, infoEnc]
  rw [h1, h3, hparse]
  decide

theorem zipInit_archiveEnc : zipInit archiveEnc false true = .ok zstateEnc := by
  have h := zipInit_eval archiveEnc false true ⟨[(nameAtxt, infoEnc)], 40⟩
    readContents_archiveEnc
  rw [h]
  decide

theorem openEntry_archiveEnc :
    openEntry archiveEnc zstateEnc nameAtxt =
      (.error .notImplEncrypted, zstateEnc) := by
  decide

/-- A one-entry archive whose central directory declares compression
method 8 (deflate). -/
def archiveDeflate : Bytes :=
  mkLocalHeader 0 8 0 5 5 nameAtxt ++ helloBytes ++
    mkCentralEntry 0 8 5 5 0 nameAtxt ++ mkEocd 1 51 40 0

theorem readContents_archiveDeflate :
    readContents archiveDeflate = .error .assertionError := by
  have hx : extractEndArchive archiveDeflate = .ok (some endrecOne) := by
    decide
  have h1 := readContents_eval archiveDeflate endrecOne hx
  have hcd : readAt archiveDeflate ((endrecOne.offset : Int) +
      concatOffset endrecOne).toNat endrecOne.size =
      mkCentralEntry 0 8 5 5 0 nameAtxt := by decide
  have h3 := readCentralDir_eval archiveDeflate endrecOne
    (mkCentralEntry 0 8 5 5 0 nameAtxt) (by decide) hcd
  have hparse : parseLoop (mkCentralEntry 0 8 5 5 0 nameAtxt)
      endrecOne.size (concatOffset endrecOne) 0 [] =
      .error .assertionError := by
    refine parseLoop_method_reject _ _ _ _ _ (by decide) (by decide) (by decide)
      (by decide)
  rw [h1, h3, hparse]
  rfl

/-- C4: a central-directory record with a non-stored compression method is
rejected during the directory parse (the `assert`, modelled as the
assertion failure), and an entry with the encrypted flag bit set makes
`open()` fail with the reference count left unchanged — concretely with
`NotImplementedError` when the local header is otherwise valid.  The
rejection happens at parse or open time; a constructed reader's state
carries neither field, so reads cannot reject.  Concrete fixtures: a
deflate-method archive fails to parse; an encrypted-flag archive parses
but its `open()` returns the unsupported-feature error with the state
unchanged. -/
theorem claimC4_unsupported_rejected_early :
    (∀ (dataCd : Bytes) (sizeCd : Nat) (concat : Int) (total : Nat)
      (m : List (Bytes × ZipInfoRO)), total < sizeCd →
      (readAt dataCd total centralDirSize).length = centralDirSize →
      (readAt dataCd total centralDirSize).take 4 = centralDirString →
      u16 (readAt dataCd total centralDirSize) 10 ≠ ZIP_STORED →
      parseLoop dataCd sizeCd concat total m = .error .assertionError) ∧
    (∀ (data : Bytes) (z : ZipState) (name : Bytes) (zinfo : ZipInfoRO),
      z.fileOpen = true → lookupName z.nameToInfo name = some zinfo →
      zinfo.flagBits &&& MASK_ENCRYPTED ≠ 0 →
      ∃ e, (openEntry data z name).1 = .error e ∧
        (openEntry data z name).2.fileRefCount = z.fileRefCount) ∧
    readContents archiveDeflate = .error .assertionError ∧
    zipInit archiveEnc false true = .ok zstateEnc ∧
    openEntry archiveEnc zstateEnc nameAtxt =
      (.error .notImplEncrypted, zstateEnc) := by
  refine ⟨?_, ?_, readContents_archiveDeflate, zipInit_archiveEnc,
    openEntry_archiveEnc⟩
  · intro dataCd sizeCd concat total m h1 h2 h3 h4
    exact parseLoop_method_reject dataCd sizeCd concat total m h1 h2 h3 h4
  · intro data z name zinfo h1 h2 h3
    exact openEntry_encrypted_fails data z name zinfo h1 h2 h3

/-- Witness for C4 at concrete inputs: the deflate central-directory
record is rejected by the parse loop, and opening the encrypted-flag entry
fails with the reference count unchanged. -/
theorem claimC4_witness :
    parseLoop (mkCentralEntry 0 8 5 5 0 nameAtxt) 51 0 0 [] =
        .error .assertionError ∧
      (∃ e, (openEntry archiveEnc zstateEnc nameAtxt).1 = .error e ∧
        (openEntry archiveEnc zstateEnc nameAtxt).2.fileRefCount =
          zstateEnc.fileRefCount) :=
  ⟨claimC4_unsupported_rejected_early.1 (mkCentralEntry 0 8 5 5 0 nameAtxt)
      51 0 0 [] (by decide) (by decide) (by decide) (by decide),
    claimC4_unsupported_rejected_early.2.1 archiveEnc zstateEnc nameAtxt
      infoEnc (by decide) (by decide) (by decide)⟩

/-- C5: every failing `open()` — whatever the validation failure — leaves
the archive state with its pre-call reference count; from a live handle
the shared-file release performed by the `except:` clause does not close
the underlying descriptor, and the rest of the state (entry table, open
flag) is untouched while the error propagates to the caller. -/
theorem claimC5_open_failure_unwinds :
    ∀ (data : Bytes) (z : ZipState) (name : Bytes) (e : Err) (z' : ZipState),
      openEntry data z name = (.error e, z') →
      z'.fileRefCount = z.fileRefCount ∧
        (1 ≤ z.fileRefCount → z'.physCloseCount = z.physCloseCount) ∧
        z'.nameToInfo = z.nameToInfo ∧ z'.fileOpen = z.fileOpen := by
  intro data z name e z' h
  exact openEntry_error_refCount data z name e z' h

/-- Witness for C5: the failing encrypted-flag `open()` on the concrete
fixture restores the state. -/
theorem claimC5_witness :
    zstateEnc.fileRefCount = zstateEnc.fileRefCount ∧
      (1 ≤ zstateEnc.fileRefCount →
        zstateEnc.physCloseCount = zstateEnc.physCloseCount) ∧
      zstateEnc.nameToInfo = zstateEnc.nameToInfo ∧
      zstateEnc.fileOpen = zstateEnc.fileOpen :=
  claimC5_open_failure_unwinds archiveEnc zstateEnc nameAtxt .notImplEncrypted
    zstateEnc (by decide)

/-- C6: the reference count starts at 1 on construction; each successful
`open()` increments it by exactly one (no physical close); each close of a
live reader or of the archive handle decrements it by exactly one, closing
the descriptor physically exactly when the count reaches zero on a
self-opened source; closing an already-closed reader or handle is a no-op
(no second decrement); and the `assert` in `_close` fires — instead of a
decrement below zero — when no reference is live. -/
theorem claimC6_refcount_discipline :
    (∀ (data : Bytes) (fp sk : Bool) (z : ZipState),
      zipInit data fp sk = .ok z → z.fileRefCount = 1) ∧
    (∀ (data : Bytes) (z : ZipState) (name : Bytes) (p : PartState)
      (z' : ZipState), openEntry data z name = (.ok p, z') →
      z'.fileRefCount = z.fileRefCount + 1 ∧
        z'.physCloseCount = z.physCloseCount) ∧
    (∀ (z : ZipState) (p p' : PartState) (z' : ZipState),
      p.closeFileobj = true → p.shared.isOpen = true → 1 ≤ z.fileRefCount →
      partClose z p = .ok (p', z') →
      z'.fileRefCount = z.fileRefCount - 1 ∧ p'.shared.isOpen = false ∧
        (z'.physCloseCount = z.physCloseCount + 1 ↔
          (z.fileRefCount = 1 ∧ z.filePassed = false))) ∧
    (∀ (z : ZipState) (p : PartState), p.shared.isOpen = false →
      partClose z p = .ok (p, z)) ∧
    (∀ (z z' : ZipState), z.fileOpen = true → 1 ≤ z.fileRefCount →
      zipClose z = .ok z' →
      z'.fileRefCount = z.fileRefCount - 1 ∧ z'.fileOpen = false ∧
        (z'.physCloseCount = z.physCloseCount + 1 ↔
          (z.fileRefCount = 1 ∧ z.filePassed = false))) ∧
    (∀ z : ZipState, z.fileOpen = false → zipClose z = .ok z) ∧
    (∀ z : ZipState, z.fileRefCount = 0 →
      zipCloseRef z = .error .assertionError) := by
  refine ⟨?_, ?_, ?_, ?_, ?_, ?_, ?_⟩
  · intro data fp sk z h
    unfold zipInit at h
    split at h
    · exact absurd h (by simp)
    · obtain rfl := (by simpa using h : _)
      rfl
  · intro data z name p z' h
    obtain rfl := openEntry_ok_refCount data z name p z' h
    exact ⟨rfl, rfl⟩
  · intro z p p' z' hc ho h1 h
    unfold partClose at h
    rw [if_pos ⟨hc, ho⟩, zipCloseRef_succ z h1] at h
    obtain ⟨rfl, rfl⟩ := (by simpa using h : _ ∧ _)
    refine ⟨rfl, rfl, ?_⟩
    dsimp only
    by_cases hcond : z.fileRefCount - 1 = 0 ∧ z.filePassed = false
    · obtain ⟨hc1, hc2⟩ := hcond
      rw [if_pos ⟨hc1, hc2⟩]
      exact ⟨fun _ => ⟨by omega, hc2⟩, fun _ => rfl⟩
    · rw [if_neg hcond]
      constructor
      · intro hp
        exact absurd hp (by omega)
      · intro hcc
        obtain ⟨h2, h3⟩ := hcc
        exact absurd ⟨by omega, h3⟩ hcond
  · intro z p ho
    unfold partClose
    rw [if_neg (by simp [ho])]
  · intro z z' hopen h1 h
    unfold zipClose at h
    rw [if_neg (by simp [hopen])] at h
    rw [zipCloseRef_succ _ (by simpa using h1)] at h
    obtain rfl := (by simpa using h : _)
    refine ⟨rfl, rfl, ?_⟩
    dsimp only
    by_cases hcond : z.fileRefCount - 1 = 0 ∧ z.filePassed = false
    · obtain ⟨hc1, hc2⟩ := hcond
      rw [if_pos ⟨hc1, hc2⟩]
      exact ⟨fun _ => ⟨by omega, hc2⟩, fun _ => rfl⟩
    · rw [if_neg hcond]
      constructor
      · intro hp
        exact absurd hp (by omega)
      · intro hcc
        obtain ⟨h2, h3⟩ := hcc
        exact absurd ⟨by omega, h3⟩ hcond
  · intro z h
    unfold zipClose
    rw [if_pos h]
  · intro z h
    unfold zipCloseRef
    rw [if_pos h]

/-- The archive state of `archiveSurplus` while one reader is open. -/
def zstateSurplus2 : ZipState := { zstateSurplus with fileRefCount := 2 }

/-- The drained surplus reader after its `close()`. -/
def partSurplusClosed : PartState :=
  { partSurplusDone with shared := { pos := 45, isOpen := false } }

/-- The `archiveSurplus` handle after `close()`: reference count zero, the
descriptor physically closed once (self-opened source). -/
def zstateSurplusClosed : ZipState :=
  { zstateSurplus with fileOpen := false, fileRefCount := 0, physCloseCount := 1 }

/-- Witness for C6: each reference-count fact instantiated on the concrete
surplus-archive lifecycle (init, open, reader close, double close, archive
close, archive double close, exhausted-count assert). -/
theorem claimC6_witness :
    zstateSurplus.fileRefCount = 1 ∧
      (zstateSurplus2.fileRefCount = zstateSurplus.fileRefCount + 1 ∧
        zstateSurplus2.physCloseCount = zstateSurplus.physCloseCount) ∧
      (zstateSurplus.fileRefCount = zstateSurplus2.fileRefCount - 1 ∧
        partSurplusClosed.shared.isOpen = false ∧
        (zstateSurplus.physCloseCount = zstateSurplus2.physCloseCount + 1 ↔
          (zstateSurplus2.fileRefCount = 1 ∧ zstateSurplus2.filePassed = false))) ∧
      partClose zstateSurplus partSurplusClosed =
        .ok (partSurplusClosed, zstateSurplus) ∧
      (zstateSurplusClosed.fileRefCount = zstateSurplus.fileRefCount - 1 ∧
        zstateSurplusClosed.fileOpen = false ∧
        (zstateSurplusClosed.physCloseCount = zstateSurplus.physCloseCount + 1 ↔
          (zstateSurplus.fileRefCount = 1 ∧ zstateSurplus.filePassed = false))) ∧
      zipClose zstateSurplusClosed = .ok zstateSurplusClosed ∧
      zipCloseRef zstateSurplusClosed = .error .assertionError := by
  refine ⟨claimC6_refcount_discipline.1 archiveSurplus false true zstateSurplus
      zipInit_archiveSurplus,
    claimC6_refcount_discipline.2.1 archiveSurplus zstateSurplus nameAtxt
      partSurplus zstateSurplus2 (by decide),
    claimC6_refcount_discipline.2.2.1 zstateSurplus2 partSurplusDone
      partSurplusClosed zstateSurplus (by decide) (by decide) (by decide)
      (by decide),
    claimC6_refcount_discipline.2.2.2.1 zstateSurplus partSurplusClosed
      (by decide),
    claimC6_refcount_discipline.2.2.2.2.1 zstateSurplus zstateSurplusClosed
      (by decide) (by decide) (by decide),
    claimC6_refcount_discipline.2.2.2.2.2.1 zstateSurplusClosed (by decide),
    claimC6_refcount_discipline.2.2.2.2.2.2 zstateSurplusClosed (by decide)⟩

/-- C9 counterexample: after `close()` on the `archiveSurplus` handle,
`namelist()`, `infolist()` and `getinfo()` all succeed (the source checks
`self._file` only in `open`), so the claim that every public operation on
a closed handle reports the already-closed error is false on this concrete
input; only `open()` reports it. -/
theorem claimC9_counterexample :
    zipClose zstateSurplus = .ok zstateSurplusClosed ∧
      zstateSurplusClosed.fileOpen = false ∧
      namelistE zstateSurplusClosed = .ok [nameAtxt] ∧
      infolistE zstateSurplusClosed = .ok [infoSurplus] ∧
      getinfoE zstateSurplusClosed nameAtxt = .ok infoSurplus ∧
      (openEntry archiveSurplus zstateSurplusClosed nameAtxt).1 =
        .error .valueErrorClosed := by
  refine ⟨by decide, by decide, by decide, by decide, by decide, by decide⟩

/-- C9 (amended): on a closed archive handle, `open()` always reports the
already-closed `ValueError`, while `namelist()`, `infolist()` and
`getinfo()` perform no closed-handle check and answer from the retained
entry table. -/
theorem claimC9_closed_handle_amended :
    ∀ (data : Bytes) (z : ZipState), z.fileOpen = false →
      (∀ name, openEntry data z name = (.error .valueErrorClosed, z)) ∧
        namelistE z = .ok (z.nameToInfo.map Prod.fst) ∧
        infolistE z = .ok (z.nameToInfo.map Prod.snd) ∧
        (∀ name zinfo, lookupName z.nameToInfo name = some zinfo →
          getinfoE z name = .ok zinfo) := by
  intro data z hclosed
  refine ⟨?_, rfl, rfl, ?_⟩
  · intro name
    unfold openEntry
    rw [if_pos hclosed]
  · intro name zinfo hl
    unfold getinfoE
    rw [hl]

/-- Witness for the amended C9 on the closed surplus-archive handle. -/
theorem claimC9_witness :
    (openEntry archiveSurplus zstateSurplusClosed nameAtxt =
        (.error .valueErrorClosed, zstateSurplusClosed)) ∧
      namelistE zstateSurplusClosed =
        .ok (zstateSurplusClosed.nameToInfo.map Prod.fst) ∧
      getinfoE zstateSurplusClosed nameAtxt = .ok infoSurplus := by
  have h := claimC9_closed_handle_amended archiveSurplus zstateSurplusClosed
    (by decide)
  exact ⟨h.1 nameAtxt, h.2.1, h.2.2.2 nameAtxt infoSurplus (by decide)⟩

/-! ### The end-of-central-directory locator: fallback order, fast/scan
agreement, and the concatenation offset (claims C7, C8, C10) -/

/-- Characterisation of `rfindAux`: `some i` exactly when `i` is the greatest
position below `n` at which `pat` occurs in `w`. -/
theorem rfindAux_eq_some_iff (w pat : Bytes) (n i : Nat) :
    rfindAux w pat n = some i ↔
      (i < n ∧ (w.drop i).take pat.length = pat ∧
        ∀ j, j < n → (w.drop j).take pat.length = pat → j ≤ i) := by
  induction n with
  | zero => simp [rfindAux]
  | succ n ih =>
    unfold rfindAux
    by_cases hm : (w.drop n).take pat.length = pat
    · rw [if_pos hm]
      constructor
      · intro h
        obtain rfl : n = i := by simpa using h
        exact ⟨Nat.lt_succ_self n, hm, fun j hj _ => by omega⟩
      · intro ⟨h1, h2, h3⟩
        have := h3 n (Nat.lt_succ_self n) hm
        have : i = n := by omega
        simp [this]
    · rw [if_neg hm, ih]
      constructor
      · intro ⟨h1, h2, h3⟩
        refine ⟨by omega, h2, fun j hj hmj => ?_⟩
        have : j ≠ n := fun he => hm (he ▸ hmj)
        exact h3 j (by omega) hmj
      · intro ⟨h1, h2, h3⟩
        have hin : i ≠ n := fun he => hm (he ▸ h2)
        exact ⟨by omega, h2, fun j hj hmj => h3 j (by omega) hmj⟩

/-- Characterisation of `rfindAux`: `none` exactly when `pat` occurs at no
position below `n`. -/
theorem rfindAux_eq_none_iff (w pat : Bytes) (n : Nat) :
    rfindAux w pat n = none ↔ ∀ j, j < n → (w.drop j).take pat.length ≠ pat := by
  induction n with
  | zero => simp [rfindAux]
  | succ n ih =>
    unfold rfindAux
    by_cases hm : (w.drop n).take pat.length = pat
    · rw [if_pos hm]
      constructor
      · intro h
        exact absurd h (by simp)
      · intro hall
        exact absurd hm (hall n (Nat.lt_succ_self n))
    · rw [if_neg hm, ih]
      constructor
      · intro h j hj hmj
        have : j ≠ n := fun he => hm (he ▸ hmj)
        exact h j (by omega) hmj
      · intro h j hj hmj
        exact h j (by omega) hmj

/-- A non-empty pattern occurrence lies within the haystack. -/
theorem match_le_length (w pat : Bytes) (j : Nat) (hpat : pat ≠ [])
    (h : (w.drop j).take pat.length = pat) : j ≤ w.length := by
  by_contra hc
  rw [List.drop_eq_nil_of_le (by omega)] at h
  simp at h
  exact hpat h

/-- Characterisation of `rfindLast` (the model of `bytes.rfind`): `some i`
exactly when `pat` occurs at `i` and at no later position. -/
theorem rfindLast_eq_some_iff (w pat : Bytes) (i : Nat) (hpat : pat ≠ []) :
    rfindLast w pat = some i ↔
      ((w.drop i).take pat.length = pat ∧
        ∀ j, (w.drop j).take pat.length = pat → j ≤ i) := by
  unfold rfindLast
  rw [rfindAux_eq_some_iff]
  constructor
  · intro ⟨h1, h2, h3⟩
    exact ⟨h2, fun j hmj => h3 j (by
      have := match_le_length w pat j hpat hmj
      omega) hmj⟩
  · intro ⟨h2, h3⟩
    have hi := match_le_length w pat i hpat h2
    exact ⟨by omega, h2, fun j _ hmj => h3 j hmj⟩

/-- Characterisation of `rfindLast`: `none` exactly when `pat` occurs
nowhere in `w`. -/
theorem rfindLast_eq_none_iff (w pat : Bytes) :
    rfindLast w pat = none ↔ ∀ j, j ≤ w.length → (w.drop j).take pat.length ≠ pat := by
  unfold rfindLast
  rw [rfindAux_eq_none_iff]
  constructor
  · intro h j hj
    exact h j (by omega)
  · intro h j hj
    exact h j (by omega)

/-- Reading an element of a dropped list reads the shifted position. -/
theorem getD_drop_add (l : Bytes) (n m d : Nat) :
    (l.drop n).getD m d = l.getD (n + m) d := by
  simp [List.getD_eq_getElem?_getD, List.getElem?_drop]

/-- A 16-bit field of a dropped buffer reads the shifted position. -/
theorem u16_drop (l : Bytes) (n i : Nat) : u16 (l.drop n) i = u16 l (n + i) := by
  unfold u16
  rw [getD_drop_add, getD_drop_add]
  rw [Nat.add_assoc]

/-- The comment-size field of a decoded EOCD record is its 16-bit field at
byte 20. -/
theorem unpackEndArchive_commentSize (b : Bytes) :
    (unpackEndArchive b).commentSize = u16 b 20 := rfl

/-- The fast path succeeds exactly on `fastPathCond`, and then yields the
decoded tail record with empty comment at offset `filesize - 22`. -/
theorem fastEndArchive_eq_some_iff (data : Bytes) (r : EndArchive) :
    fastEndArchive data = some r ↔
      (fastPathCond data ∧
        r = { unpackEndArchive (data.drop (data.length - endArchiveSize)) with
              comment := [], location := data.length - endArchiveSize }) := by
  unfold fastEndArchive
  by_cases h : fastPathCond data
  · rw [if_pos h]
    constructor
    · intro hr
      exact ⟨h, by simpa using hr.symm⟩
    · intro ⟨_, hr⟩
      rw [hr]
  · rw [if_neg h]
    constructor
    · intro hr
      exact absurd hr (by simp)
    · intro ⟨hc, _⟩
      exact absurd hc h

/-- The scan-window start as a truncated `Nat` subtraction. -/
theorem scanWindowStart_eq (data : Bytes) :
    scanWindowStart data = data.length - 65558 := by
  unfold scanWindowStart endArchiveSize
  omega

/-- The scan fallback returns `None` when the window holds no EOCD
signature. -/
theorem scanEndArchive_none (data : Bytes)
    (h : rfindLast (data.drop (scanWindowStart data)) endArchiveString = none) :
    scanEndArchive data = none := by
  unfold scanEndArchive
  rw [h]

/-- The scan fallback's result when the last signature occurrence leaves a
complete 22-byte record: the decoded record, the trailing comment bytes its
comment-size field announces, and the occurrence's absolute offset. -/
theorem scanEndArchive_found (data : Bytes) (start : Nat)
    (h : rfindLast (data.drop (scanWindowStart data)) endArchiveString = some start)
    (hc : (((data.drop (scanWindowStart data)).drop start).take
      endArchiveSize).length = endArchiveSize) :
    scanEndArchive data = some
      { unpackEndArchive (((data.drop (scanWindowStart data)).drop start).take
          endArchiveSize) with
        comment := ((data.drop (scanWindowStart data)).drop
          (start + endArchiveSize)).take
          (u16 (((data.drop (scanWindowStart data)).drop start).take
            endArchiveSize) 20),
        location := scanWindowStart data + start } := by
  unfold scanEndArchive
  rw [h]
  dsimp only
  rw [if_neg (not_not_intro hc)]
  rfl

/-- The scan fallback returns `None` ("Zip file is corrupted") when the
last signature occurrence leaves fewer than 22 bytes. -/
theorem scanEndArchive_truncated (data : Bytes) (start : Nat)
    (h : rfindLast (data.drop (scanWindowStart data)) endArchiveString = some start)
    (hc : (((data.drop (scanWindowStart data)).drop start).take
      endArchiveSize).length ≠ endArchiveSize) :
    scanEndArchive data = none := by
  unfold scanEndArchive
  rw [h]
  dsimp only
  rw [if_pos hc]

/-- A 16-bit field read off the last two bytes of a 22-byte record. -/
theorem u16_of_drop_pair (l : Bytes) (a b : Nat) (h : l.drop 20 = [a, b]) :
    u16 l 20 = a + 256 * b := by
  unfold u16
  have h20 := getD_drop_add l 20 0 0
  have h21 := getD_drop_add l 20 1 0
  rw [h] at h20 h21
  simp at h20 h21 ⊢
  omega

/-- C10 (amended): the fast-path read and the backward-scanning fallback of
`_extract_end_archive` produce identical EOCD records - same decoded fields,
same empty comment, same located offset - for every source on which the fast
path succeeds AND whose last signature occurrence in the scan window is the
true record start (at window position `length - 22`).  The unamended claim
is refuted by `claimC10_counterexample`, where a signature embedded inside
the EOCD record's interior makes the scan pick a truncated record. -/
theorem claimC10_fast_scan_agree (data : Bytes) (r : EndArchive)
    (hfast : fastEndArchive data = some r)
    (hlast : rfindLast (data.drop (scanWindowStart data)) endArchiveString =
      some ((data.drop (scanWindowStart data)).length - endArchiveSize)) :
    scanEndArchive data = some r := by
  obtain ⟨hcond, rfl⟩ := (fastEndArchive_eq_some_iff data r).mp hfast
  obtain ⟨hlen, hsig, hcomment⟩ := hcond
  have hES : endArchiveSize = 22 := rfl
  have hSW : scanWindowStart data = data.length - 65558 := scanWindowStart_eq data
  have hwlen : (data.drop (scanWindowStart data)).length =
      data.length - scanWindowStart data := List.length_drop _ _
  have hidx : scanWindowStart data +
      ((data.drop (scanWindowStart data)).length - endArchiveSize) =
      data.length - endArchiveSize := by
    rw [hwlen, hSW, hES]
    omega
  have hdropw : (data.drop (scanWindowStart data)).drop
      ((data.drop (scanWindowStart data)).length - endArchiveSize) =
      data.drop (data.length - endArchiveSize) := by
    rw [List.drop_drop, hidx]
  have htail_len : (data.drop (data.length - endArchiveSize)).length =
      endArchiveSize := by
    rw [List.length_drop, hES]
    omega
  have hrec : ((data.drop (scanWindowStart data)).drop
      ((data.drop (scanWindowStart data)).length - endArchiveSize)).take
      endArchiveSize = data.drop (data.length - endArchiveSize) := by
    rw [hdropw]
    exact List.take_of_length_le (le_of_eq htail_len)
  have hc : (((data.drop (scanWindowStart data)).drop
      ((data.drop (scanWindowStart data)).length - endArchiveSize)).take
      endArchiveSize).length = endArchiveSize := by
    rw [hrec]
    exact htail_len
  have h2 := scanEndArchive_found data _ hlast hc
  rw [h2, hrec]
  have hcs : u16 (data.drop (data.length - endArchiveSize)) 20 = 0 := by
    have := u16_of_drop_pair (data.drop (data.length - endArchiveSize)) 0 0 hcomment
    simpa using this
  rw [hcs, hidx]
  simp

/-- A minimal archive: a single empty-directory EOCD record. -/
def emptyZip22 : Bytes := mkEocd 0 0 0 0

/-- The EOCD record located in `emptyZip22`. -/
def eocdEmpty : EndArchive :=
  { signature := [80, 75, 5, 6], diskNumber := 0, diskStart := 0,
    entriesThisDisk := 0, entriesTotal := 0, size := 0, offset := 0,
    commentSize := 0, comment := [], location := 0 }

/-- An EOCD record with zero comment length whose disk-entry-count fields
hold the byte string `PK\x05\x06`: a second signature occurrence begins at
byte 8 of the record. -/
def cexEocd : Bytes :=
  endArchiveString ++ u16b 0 ++ u16b 0 ++ [80, 75] ++ [5, 6] ++
    u32b 51 ++ u32b 45 ++ u16b 0

/-- A one-entry stored archive ending in `cexEocd`: well-formed (the parse
ignores the entry-count fields), zero-length EOCD comment, but the scan
fallback sees the embedded signature as the last occurrence. -/
def archiveC10 : Bytes :=
  mkLocalHeader 0 0 0 10 10 nameAtxt ++ (helloBytes ++ [88, 88, 88, 88, 88]) ++
    mkCentralEntry 0 0 10 5 0 nameAtxt ++ cexEocd

/-- C7: the directory locator's exact fallback order, for every byte source
holding at least 22 bytes.  (1) The scan window is the last
`min(size, 64KiB + 22)` bytes.  (2) The fast path accepts exactly when the
last 22 bytes carry the signature and a zero comment-length field, yielding
that record.  (3) When the scan finds the signature, the found position is
an occurrence and no later window position is one (it is the LAST
occurrence); a complete record is decoded together with the comment bytes
its comment-length field announces, at the occurrence's absolute offset; a
truncated record yields `None`.  (4) When the window holds no signature the
fast path cannot have accepted either, and the source is reported as not a
zip archive (`BadZipFile("File is not a zip file")`). -/
theorem claimC7_locator_fallback (data : Bytes) (h22 : endArchiveSize ≤ data.length) :
    ((data.drop (scanWindowStart data)).length =
        min data.length (65536 + endArchiveSize)) ∧
    (∀ r, fastEndArchive data = some r ↔
        ((data.drop (data.length - endArchiveSize)).take 4 = endArchiveString ∧
         (data.drop (data.length - endArchiveSize)).drop 20 = [0, 0] ∧
         r = { unpackEndArchive (data.drop (data.length - endArchiveSize)) with
               comment := [], location := data.length - endArchiveSize })) ∧
    (∀ start,
        rfindLast (data.drop (scanWindowStart data)) endArchiveString = some start →
        (data.drop (scanWindowStart data + start)).take 4 = endArchiveString ∧
        (∀ j, ((data.drop (scanWindowStart data)).drop j).take 4 = endArchiveString →
            j ≤ start) ∧
        (endArchiveSize ≤ (data.drop (scanWindowStart data)).length - start →
            scanEndArchive data = some
              { unpackEndArchive (((data.drop (scanWindowStart data)).drop
                  start).take endArchiveSize) with
                comment := ((data.drop (scanWindowStart data)).drop
                  (start + endArchiveSize)).take
                  (u16 (((data.drop (scanWindowStart data)).drop start).take
                    endArchiveSize) 20),
                location := scanWindowStart data + start }) ∧
        ((data.drop (scanWindowStart data)).length - start < endArchiveSize →
            scanEndArchive data = none)) ∧
    (rfindLast (data.drop (scanWindowStart data)) endArchiveString = none →
        fastEndArchive data = none ∧ readContents data = .error .badZipNotZip) := by
  have hl4 : endArchiveString.length = 4 := rfl
  have hES : endArchiveSize = 22 := rfl
  have hSW : scanWindowStart data = data.length - 65558 := scanWindowStart_eq data
  have hwlen : (data.drop (scanWindowStart data)).length =
      data.length - scanWindowStart data := List.length_drop _ _
  have hidx : scanWindowStart data +
      ((data.drop (scanWindowStart data)).length - endArchiveSize) =
      data.length - endArchiveSize := by
    rw [hwlen, hSW, hES]
    omega
  have hdropw : (data.drop (scanWindowStart data)).drop
      ((data.drop (scanWindowStart data)).length - endArchiveSize) =
      data.drop (data.length - endArchiveSize) := by
    rw [List.drop_drop, hidx]
  refine ⟨?_, ?_, ?_, ?_⟩
  · rw [hwlen, hSW]
    omega
  · intro r
    rw [fastEndArchive_eq_some_iff]
    unfold fastPathCond
    constructor
    · intro ⟨⟨_, hsig, hcom⟩, hr⟩
      exact ⟨hsig, hcom, hr⟩
    · intro ⟨hsig, hcom, hr⟩
      exact ⟨⟨h22, hsig, hcom⟩, hr⟩
  · intro start hstart
    have hiff := (rfindLast_eq_some_iff (data.drop (scanWindowStart data))
      endArchiveString start (by decide)).mp hstart
    obtain ⟨hmatch, hmax⟩ := hiff
    rw [hl4] at hmatch
    rw [List.drop_drop] at hmatch
    refine ⟨hmatch, ?_, ?_, ?_⟩
    · intro j hj
      exact hmax j (by rw [hl4]; exact hj)
    · intro hcomplete
      refine scanEndArchive_found data start hstart ?_
      rw [List.length_take, List.length_drop]
      omega
    · intro htrunc
      refine scanEndArchive_truncated data start hstart ?_
      rw [List.length_take, List.length_drop]
      omega
  · intro hnone
    have hiff := (rfindLast_eq_none_iff (data.drop (scanWindowStart data))
      endArchiveString).mp hnone
    have hfastnone : fastEndArchive data = none := by
      unfold fastEndArchive
      rw [if_neg]
      intro ⟨_, hsig, _⟩
      have hj := hiff ((data.drop (scanWindowStart data)).length - endArchiveSize)
        (by omega)
      rw [hl4, hdropw] at hj
      exact hj hsig
    refine ⟨hfastnone, ?_⟩
    have hscan : scanEndArchive data = none := scanEndArchive_none data hnone
    have hex : extractEndArchive data = .ok none := by
      unfold extractEndArchive
      rw [if_neg (by omega : ¬ data.length < endArchiveSize), hfastnone]
      dsimp only
      rw [hscan]
    unfold readContents
    rw [hex]

/-- The claim's expected effect of prepending `n` bytes on one entry: the
stored local-header offset grows by exactly `n` (spec-side definition for
comparison). -/
def shiftInfo (n : Nat) (i : ZipInfoRO) : ZipInfoRO :=
  { i with headerOffset := i.headerOffset + n }

/-- `shiftInfo` applied across the entry table. -/
def shiftTable (n : Nat) (m : List (Bytes × ZipInfoRO)) :
    List (Bytes × ZipInfoRO) :=
  m.map (fun p => (p.1, shiftInfo n p.2))

/-- The claim's expected effect of prepending `n` bytes on a parse result:
every header offset and the directory start grow by exactly `n`. -/
def shiftContents (n : Nat) (c : ContentsRO) : ContentsRO :=
  ⟨shiftTable n c.nameToInfo, c.startDir + n⟩

/-- A read past the prepended bytes sees the original data. -/
theorem readAt_append_shift (pfx data : Bytes) (i n : Nat) :
    readAt (pfx ++ data) (pfx.length + i) n = readAt data i n := by
  unfold readAt
  rw [List.drop_append]

/-- Table lookup commutes with the offset shift. -/
theorem lookupName_shiftTable (m : List (Bytes × ZipInfoRO)) (k : Bytes) (n : Nat) :
    lookupName (shiftTable n m) k = (lookupName m k).map (shiftInfo n) := by
  induction m with
  | nil => simp [shiftTable, lookupName]
  | cons p t ih =>
    unfold shiftTable at ih ⊢
    simp only [List.map_cons]
    unfold lookupName
    by_cases hk : p.1 = k
    · rw [if_pos hk, if_pos hk]
      rfl
    · rw [if_neg hk, if_neg hk]
      exact ih

/-- Dict insertion commutes with the offset shift. -/
theorem dictInsert_shift (m : List (Bytes × ZipInfoRO)) (k : Bytes) (v : ZipInfoRO)
    (n : Nat) :
    dictInsert (shiftTable n m) k (shiftInfo n v) = shiftTable n (dictInsert m k v) := by
  unfold dictInsert
  rw [lookupName_shiftTable]
  cases lookupName m k with
  | none =>
    simp [shiftTable]
  | some w =>
    simp only [Option.map_some, Option.isSome_some, if_pos]
    unfold shiftTable
    rw [List.map_map, List.map_map]
    apply List.map_congr_left
    intro p _
    by_cases hk : p.1 = k
    · simp [Function.comp, hk]
    · simp [Function.comp, hk]

/-- The entry-decoding loop over the same scratch buffer with the
concatenation offset increased by `n` yields the shifted table (fuel-indexed
induction). -/
theorem parseLoop_shift_aux (dataCd : Bytes) (sizeCd : Nat) (concat : Int)
    (n : Nat) (k : Nat) :
    ∀ total m, sizeCd ≤ total + k →
      parseLoop dataCd sizeCd (concat + n) total (shiftTable n m) =
        (parseLoop dataCd sizeCd concat total m).map (shiftTable n) := by
  induction k with
  | zero =>
    intro total m hk
    rw [parseLoop, parseLoop]
    rw [dif_neg (by omega), dif_neg (by omega)]
    rfl
  | succ k ih =>
    intro total m hk
    by_cases htot : total < sizeCd
    · conv_lhs => rw [parseLoop]
      conv_rhs => rw [parseLoop]
      rw [dif_pos htot, dif_pos htot]
      dsimp only
      generalize readAt dataCd total centralDirSize = cdir
      by_cases h1 : cdir.length ≠ centralDirSize
      · rw [if_pos h1, if_pos h1]
        rfl
      · rw [if_neg h1, if_neg h1]
        by_cases h2 : cdir.take 4 ≠ centralDirString
        · rw [if_pos h2, if_pos h2]
          rfl
        · rw [if_neg h2, if_neg h2]
          by_cases h3 : u16 cdir 10 ≠ ZIP_STORED
          · rw [if_pos h3, if_pos h3]
            rfl
          · rw [if_neg h3, if_neg h3]
            rw [show ((u32 cdir 42 : Int) + (concat + (n : Int))) =
                ((u32 cdir 42 : Int) + concat) + (n : Int) from by ring]
            have hzrec : ∀ (nm : Bytes) (fl cs fs : Nat) (off : Int),
                ({ filename := nm, flagBits := fl, headerOffset := off + (n : Int), compressSize := cs, fileSize := fs } : ZipInfoRO) =
                  shiftInfo n { filename := nm, flagBits := fl, headerOffset := off, compressSize := cs, fileSize := fs } :=
              fun _ _ _ _ _ => rfl
            rw [hzrec]
            rw [dictInsert_shift]
            have hc46 : centralDirSize = 46 := rfl
            exact ih _ _ (by omega)
    · rw [parseLoop, parseLoop]
      rw [dif_neg htot, dif_neg htot]
      rfl

/-- `parseLoop` with the concatenation offset increased by `n` yields the
shifted table. -/
theorem parseLoop_shift (dataCd : Bytes) (sizeCd : Nat) (concat : Int) (n : Nat) :
    parseLoop dataCd sizeCd (concat + n) 0 [] =
      (parseLoop dataCd sizeCd concat 0 []).map (shiftTable n) := by
  have h := parseLoop_shift_aux dataCd sizeCd concat n sizeCd 0 [] (by omega)
  simpa [shiftTable] using h

/-- A parse that stored at least one entry consumed a full first record:
the directory size is positive and the scratch buffer holds at least 46
bytes. -/
theorem parseLoop_first (dataCd : Bytes) (sizeCd : Nat) (concat : Int)
    (res : List (Bytes × ZipInfoRO))
    (h : parseLoop dataCd sizeCd concat 0 [] = .ok res) (hne : res ≠ []) :
    0 < sizeCd ∧ 46 ≤ dataCd.length := by
  by_cases hs : 0 < sizeCd
  · refine ⟨hs, ?_⟩
    rw [parseLoop, dif_pos hs] at h
    dsimp only at h
    by_cases h1 : (readAt dataCd 0 centralDirSize).length ≠ centralDirSize
    · rw [if_pos h1] at h
      exact absurd h (by simp)
    · have : (readAt dataCd 0 centralDirSize).length = centralDirSize :=
        not_not.mp h1
      unfold readAt at this
      rw [List.drop_zero, List.length_take] at this
      have hc46 : centralDirSize = 46 := rfl
      omega
  · rw [parseLoop, dif_neg hs] at h
    injection h with h2
    exact absurd h2.symm hne

/-- The last `k` bytes of a prefixed source are the last `k` bytes of the
original. -/
theorem drop_tail_append (pfx data : Bytes) (k : Nat) (hk : k ≤ data.length) :
    (pfx ++ data).drop ((pfx ++ data).length - k) = data.drop (data.length - k) := by
  rw [List.length_append]
  rw [show pfx.length + data.length - k = pfx.length + (data.length - k) from by omega]
  rw [List.drop_append]

/-- The fast-path condition only looks at the last 22 bytes, so it is
invariant under prepending. -/
theorem fastPathCond_append (pfx data : Bytes) (h22 : endArchiveSize ≤ data.length) :
    fastPathCond (pfx ++ data) ↔ fastPathCond data := by
  unfold fastPathCond
  rw [drop_tail_append pfx data endArchiveSize h22, List.length_append]
  have hES : endArchiveSize = 22 := rfl
  constructor
  · intro ⟨_, b, c⟩
    exact ⟨h22, b, c⟩
  · intro ⟨_, b, c⟩
    exact ⟨by omega, b, c⟩

/-- Prepending bytes shifts the fast path's located offset and nothing
else. -/
theorem fastEndArchive_shift (pfx data : Bytes) (r : EndArchive)
    (h22 : endArchiveSize ≤ data.length)
    (h : fastEndArchive data = some r) :
    fastEndArchive (pfx ++ data) =
      some { r with location := r.location + pfx.length } := by
  obtain ⟨hcond, rfl⟩ := (fastEndArchive_eq_some_iff data r).mp h
  refine (fastEndArchive_eq_some_iff (pfx ++ data) _).mpr
    ⟨(fastPathCond_append pfx data h22).mpr hcond, ?_⟩
  rw [drop_tail_append pfx data endArchiveSize h22, List.length_append]
  have hES : endArchiveSize = 22 := rfl
  rw [show pfx.length + data.length - endArchiveSize =
      (data.length - endArchiveSize) + pfx.length from by omega]

/-- A failing fast path still fails after prepending. -/
theorem fastEndArchive_none_append (pfx data : Bytes)
    (h22 : endArchiveSize ≤ data.length)
    (h : fastEndArchive data = none) :
    fastEndArchive (pfx ++ data) = none := by
  unfold fastEndArchive at h ⊢
  by_cases hc : fastPathCond (pfx ++ data)
  · rw [if_pos ((fastPathCond_append pfx data h22).mp hc)] at h
    exact absurd h (by simp)
  · rw [if_neg hc]

/-- Prepending bytes shifts the scan fallback's located offset and nothing
else: the last signature occurrence of the prefixed window corresponds to
the original one, because any later occurrence would lie in the original
data and contradict the original's maximality. -/
theorem scanEndArchive_shift (pfx data : Bytes) (e : EndArchive)
    (h : scanEndArchive data = some e) :
    scanEndArchive (pfx ++ data) =
      some { e with location := e.location + pfx.length } := by
  cases hrf : rfindLast (data.drop (scanWindowStart data)) endArchiveString with
  | none =>
    rw [scanEndArchive_none data hrf] at h
    exact absurd h (by simp)
  | some start =>
    by_cases hc : (((data.drop (scanWindowStart data)).drop start).take
        endArchiveSize).length = endArchiveSize
    case neg =>
      rw [scanEndArchive_truncated data start hrf hc] at h
      exact absurd h (by simp)
    case pos =>
      obtain ⟨hmatch, hmax⟩ := (rfindLast_eq_some_iff
        (data.drop (scanWindowStart data)) endArchiveString start (by decide)).mp hrf
      have hWW : scanWindowStart (pfx ++ data) ≤
          scanWindowStart data + pfx.length := by
        rw [scanWindowStart_eq, scanWindowStart_eq, List.length_append]
        omega
      have hloc : scanWindowStart (pfx ++ data) +
          (scanWindowStart data + start + pfx.length -
            scanWindowStart (pfx ++ data)) =
          pfx.length + (scanWindowStart data + start) := by
        omega
      have hdrop1 : ((pfx ++ data).drop (scanWindowStart (pfx ++ data))).drop
          (scanWindowStart data + start + pfx.length -
            scanWindowStart (pfx ++ data)) =
          (data.drop (scanWindowStart data)).drop start := by
        rw [List.drop_drop, List.drop_drop, hloc, List.drop_append]
      have hrf' : rfindLast ((pfx ++ data).drop (scanWindowStart (pfx ++ data)))
          endArchiveString =
          some (scanWindowStart data + start + pfx.length -
            scanWindowStart (pfx ++ data)) := by
        refine (rfindLast_eq_some_iff _ _ _ (by decide)).mpr ⟨?_, ?_⟩
        · rw [hdrop1]
          exact hmatch
        · intro j hj
          by_contra hgt
          push_neg at hgt
          obtain ⟨q, hq, hq2⟩ : ∃ q, scanWindowStart (pfx ++ data) + j =
              pfx.length + (scanWindowStart data + q) ∧ start < q :=
            ⟨scanWindowStart (pfx ++ data) + j - pfx.length - scanWindowStart data,
              by omega, by omega⟩
          rw [List.drop_drop, hq, List.drop_append, ← List.drop_drop] at hj
          have := hmax q hj
          omega
      have hc' : ((((pfx ++ data).drop (scanWindowStart (pfx ++ data))).drop
          (scanWindowStart data + start + pfx.length -
            scanWindowStart (pfx ++ data))).take endArchiveSize).length =
          endArchiveSize := by
        rw [hdrop1]
        exact hc
      have hdrop2 : ((pfx ++ data).drop (scanWindowStart (pfx ++ data))).drop
          (scanWindowStart data + start + pfx.length -
            scanWindowStart (pfx ++ data) + endArchiveSize) =
          (data.drop (scanWindowStart data)).drop (start + endArchiveSize) := by
        rw [List.drop_drop, List.drop_drop,
          show scanWindowStart (pfx ++ data) +
            (scanWindowStart data + start + pfx.length -
              scanWindowStart (pfx ++ data) + endArchiveSize) =
            pfx.length + (scanWindowStart data + (start + endArchiveSize)) from
            by omega,
          List.drop_append]
      rw [scanEndArchive_found (pfx ++ data) _ hrf' hc']
      rw [scanEndArchive_found data start hrf hc] at h
      injection h with h2
      rw [← h2]
      rw [hdrop1, hdrop2,
        show scanWindowStart (pfx ++ data) +
          (scanWindowStart data + start + pfx.length -
            scanWindowStart (pfx ++ data)) =
          (scanWindowStart data + start) + pfx.length from by omega]

/-- Inversion of `Except.map some`. -/
theorem exceptMapSome_ok {α : Type} (x : Except Err α) (e : α)
    (h : x.map some = .ok (some e)) : x = .ok e := by
  cases x with
  | error er => exact absurd h (by simp [Except.map])
  | ok a =>
    simp [Except.map] at h
    rw [h]

/-- The ZIP64 probe never changes the located offset. -/
theorem endArchiveUpdateZip64_location (data : Bytes) (off : Int)
    (e r : EndArchive) (h : endArchiveUpdateZip64 data off e = .ok r) :
    r.location = e.location := by
  unfold endArchiveUpdateZip64 at h
  dsimp only at h
  by_cases h1 : (data.length : Int) + off - endArchive64LocatorSize < 0
  · rw [if_pos h1] at h
    injection h with h2
    rw [← h2]
  · rw [if_neg h1] at h
    by_cases h2 : (readAt data ((data.length : Int) + off -
        endArchive64LocatorSize).toNat endArchive64LocatorSize).length ≠
        endArchive64LocatorSize
    · rw [if_pos h2] at h
      injection h with h3
      rw [← h3]
    · rw [if_neg h2] at h
      by_cases h3 : (readAt data ((data.length : Int) + off -
          endArchive64LocatorSize).toNat endArchive64LocatorSize).take 4 ≠
          endArchive64LocatorString
      · rw [if_pos h3] at h
        injection h with h4
        rw [← h4]
      · rw [if_neg h3] at h
        by_cases h4 : u32 (readAt data ((data.length : Int) + off -
            endArchive64LocatorSize).toNat endArchive64LocatorSize) 4 ≠ 0 ∨
            u32 (readAt data ((data.length : Int) + off -
              endArchive64LocatorSize).toNat endArchive64LocatorSize) 16 > 1
        · rw [if_pos h4] at h
          exact absurd h (by simp)
        · rw [if_neg h4] at h
          by_cases h5 : (data.length : Int) + off - endArchive64LocatorSize -
              endArchive64Size < 0
          · rw [if_pos h5] at h
            exact absurd h (by simp)
          · rw [if_neg h5] at h
            by_cases h6 : (readAt data ((data.length : Int) + off -
                endArchive64LocatorSize - endArchive64Size).toNat
                endArchive64Size).length ≠ endArchive64Size
            · rw [if_pos h6] at h
              injection h with h7
              rw [← h7]
            · rw [if_neg h6] at h
              by_cases h7 : (readAt data ((data.length : Int) + off -
                  endArchive64LocatorSize - endArchive64Size).toNat
                  endArchive64Size).take 4 ≠ endArchive64String
              · rw [if_pos h7] at h
                injection h with h8
                rw [← h8]
              · rw [if_neg h7] at h
                injection h with h8
                rw [← h8]

/-- When the first probe position is non-negative, the ZIP64 probe reads
the same bytes on the prefixed source and returns the same record with the
located offset shifted. -/
theorem endArchiveUpdateZip64_shift (pfx data : Bytes) (off : Int)
    (e r : EndArchive)
    (hpos : 0 ≤ (data.length : Int) + off - endArchive64LocatorSize)
    (h : endArchiveUpdateZip64 data off e = .ok r) :
    endArchiveUpdateZip64 (pfx ++ data) off
        { e with location := e.location + pfx.length } =
      .ok { r with location := r.location + pfx.length } := by
  have hp1 : ((pfx ++ data).length : Int) + off - endArchive64LocatorSize =
      ((data.length : Int) + off - endArchive64LocatorSize) + pfx.length := by
    rw [List.length_append]
    push_cast
    ring
  have hp1n : (((data.length : Int) + off - endArchive64LocatorSize) +
      (pfx.length : Int)).toNat = pfx.length +
      ((data.length : Int) + off - endArchive64LocatorSize).toNat := by
    omega
  unfold endArchiveUpdateZip64 at h ⊢
  dsimp only at h ⊢
  rw [hp1, if_neg (by omega : ¬ ((data.length : Int) + off -
    endArchive64LocatorSize) + (pfx.length : Int) < 0), hp1n,
    readAt_append_shift]
  rw [if_neg (by omega : ¬ (data.length : Int) + off -
    endArchive64LocatorSize < 0)] at h
  by_cases h2 : (readAt data ((data.length : Int) + off -
      endArchive64LocatorSize).toNat endArchive64LocatorSize).length ≠
      endArchive64LocatorSize
  · rw [if_pos h2] at h ⊢
    injection h with h3
    rw [← h3]
  · rw [if_neg h2] at h ⊢
    by_cases h3 : (readAt data ((data.length : Int) + off -
        endArchive64LocatorSize).toNat endArchive64LocatorSize).take 4 ≠
        endArchive64LocatorString
    · rw [if_pos h3] at h ⊢
      injection h with h4
      rw [← h4]
    · rw [if_neg h3] at h ⊢
      by_cases h4 : u32 (readAt data ((data.length : Int) + off -
          endArchive64LocatorSize).toNat endArchive64LocatorSize) 4 ≠ 0 ∨
          u32 (readAt data ((data.length : Int) + off -
            endArchive64LocatorSize).toNat endArchive64LocatorSize) 16 > 1
      · rw [if_pos h4] at h
        exact absurd h (by simp)
      · rw [if_neg h4] at h ⊢
        have hp2 : ((data.length : Int) + off - endArchive64LocatorSize +
            pfx.length) - endArchive64Size =
            ((data.length : Int) + off - endArchive64LocatorSize -
              endArchive64Size) + pfx.length := by
          ring
        rw [hp2]
        by_cases h5 : (data.length : Int) + off - endArchive64LocatorSize -
            endArchive64Size < 0
        · rw [if_pos h5] at h
          exact absurd h (by simp)
        · rw [if_neg h5] at h
          have hp2n : (((data.length : Int) + off - endArchive64LocatorSize -
              endArchive64Size) + (pfx.length : Int)).toNat = pfx.length +
              ((data.length : Int) + off - endArchive64LocatorSize -
                endArchive64Size).toNat := by
            omega
          rw [if_neg (by omega : ¬ ((data.length : Int) + off -
            endArchive64LocatorSize - endArchive64Size) +
            (pfx.length : Int) < 0), hp2n, readAt_append_shift]
          by_cases h6 : (readAt data ((data.length : Int) + off -
              endArchive64LocatorSize - endArchive64Size).toNat
              endArchive64Size).length ≠ endArchive64Size
          · rw [if_pos h6] at h ⊢
            injection h with h7
            rw [← h7]
          · rw [if_neg h6] at h ⊢
            by_cases h7 : (readAt data ((data.length : Int) + off -
                endArchive64LocatorSize - endArchive64Size).toNat
                endArchive64Size).take 4 ≠ endArchive64String
            · rw [if_pos h7] at h ⊢
              injection h with h8
              rw [← h8]
            · rw [if_neg h7] at h ⊢
              injection h with h8
              rw [← h8]

/-- `_extract_end_archive` on a prefixed source: same record, located
offset shifted by the prefix length.  Requires 42 bytes of data and a
located offset of at least 20, so both probe positions that the original
run visited stay inside the original data. -/
theorem extractEndArchive_shift (pfx data : Bytes) (e : EndArchive)
    (hlen : 42 ≤ data.length) (hloc : 20 ≤ e.location)
    (h : extractEndArchive data = .ok (some e)) :
    extractEndArchive (pfx ++ data) =
      .ok (some { e with location := e.location + pfx.length }) := by
  have hE22 : endArchiveSize = 22 := rfl
  have h22 : endArchiveSize ≤ data.length := by omega
  unfold extractEndArchive at h ⊢
  rw [if_neg (by omega : ¬ data.length < endArchiveSize)] at h
  rw [if_neg (by rw [List.length_append]; omega :
    ¬ (pfx ++ data).length < endArchiveSize)]
  cases hf : fastEndArchive data with
  | some f =>
    rw [hf] at h
    rw [fastEndArchive_shift pfx data f h22 hf]
    dsimp only at h ⊢
    have hz := exceptMapSome_ok _ _ h
    have hLOC : endArchive64LocatorSize = 20 := rfl
    have hshift := endArchiveUpdateZip64_shift pfx data (-(endArchiveSize : Int))
      f e (by push_cast [hE22, hLOC]; omega) hz
    rw [hshift]
    rfl
  | none =>
    rw [hf] at h
    rw [fastEndArchive_none_append pfx data h22 hf]
    dsimp only at h ⊢
    cases hs : scanEndArchive data with
    | none =>
      rw [hs] at h
      dsimp only at h
      exact absurd h (by simp)
    | some s =>
      rw [hs] at h
      dsimp only at h
      have hz := exceptMapSome_ok _ _ h
      have hpres := endArchiveUpdateZip64_location data _ s e hz
      rw [scanEndArchive_shift pfx data s hs]
      dsimp only
      rw [show ((s.location + pfx.length : Nat) : Int) -
          ((pfx ++ data).length : Int) =
          ((s.location : Nat) : Int) - (data.length : Int) from by
        rw [List.length_append]
        push_cast
        ring]
      have hLOC : endArchive64LocatorSize = 20 := rfl
      have hshift := endArchiveUpdateZip64_shift pfx data
        (((s.location : Nat) : Int) - data.length) s e
        (by push_cast [hLOC]; omega) hz
      rw [hshift]
      rfl

/-- Shifting the located offset shifts the concatenation offset. -/
theorem concatOffset_shift (e : EndArchive) (n : Nat) :
    concatOffset { e with location := e.location + n } = concatOffset e + n := by
  unfold concatOffset
  dsimp only
  push_cast
  ring

/-- A successful parse places the directory start at
`offset_cd + concat`, the concatenation-offset formula of the claim. -/
theorem readContents_startDir_eq (data : Bytes) (endrec : EndArchive)
    (c : ContentsRO) (hx : extractEndArchive data = .ok (some endrec))
    (h : readContents data = .ok c) :
    c.startDir = (endrec.offset : Int) + concatOffset endrec := by
  unfold readContents at h
  rw [hx] at h
  dsimp only at h
  unfold readCentralDir at h
  dsimp only at h
  by_cases hneg : (endrec.offset : Int) + concatOffset endrec < 0
  · rw [if_pos hneg] at h
    exact absurd h (by simp)
  · rw [if_neg hneg] at h
    cases hp : parseLoop (readAt data ((endrec.offset : Int) +
        concatOffset endrec).toNat endrec.size) endrec.size
        (concatOffset endrec) 0 [] with
    | error er =>
      rw [hp] at h
      exact absurd h (by simp [Except.map])
    | ok m =>
      rw [hp] at h
      simp [Except.map] at h
      rw [← h]

/-- A negative computed directory start is the fatal
`BadZipFile("Bad offset for central directory")`. -/
theorem readContents_neg_offset (data : Bytes) (endrec : EndArchive)
    (hx : extractEndArchive data = .ok (some endrec))
    (hneg : (endrec.offset : Int) + concatOffset endrec < 0) :
    readContents data = .error .badZipBadCdOffset := by
  unfold readContents
  rw [hx]
  dsimp only
  unfold readCentralDir
  dsimp only
  rw [if_pos hneg]

/-- Prepending arbitrary bytes to an archive whose parse stored at least
one entry shifts every recovered header offset and the directory start by
exactly the prefix length. -/
theorem readContents_prefix_shift (pfx data : Bytes) (c : ContentsRO)
    (h : readContents data = .ok c) (hne : c.nameToInfo ≠ []) :
    readContents (pfx ++ data) = .ok (shiftContents pfx.length c) := by
  unfold readContents at h
  cases hx : extractEndArchive data with
  | error er =>
    rw [hx] at h
    cases er <;> exact absurd h (by simp)
  | ok o =>
    cases o with
    | none =>
      rw [hx] at h
      exact absurd h (by simp)
    | some endrec =>
      rw [hx] at h
      dsimp only at h
      unfold readCentralDir at h
      dsimp only at h
      by_cases hneg : (endrec.offset : Int) + concatOffset endrec < 0
      · rw [if_pos hneg] at h
        exact absurd h (by simp)
      · rw [if_neg hneg] at h
        cases hp : parseLoop (readAt data ((endrec.offset : Int) +
            concatOffset endrec).toNat endrec.size) endrec.size
            (concatOffset endrec) 0 [] with
        | error er =>
          rw [hp] at h
          exact absurd h (by simp [Except.map])
        | ok m =>
          rw [hp] at h
          simp [Except.map] at h
          obtain rfl := h
          have hmne : m ≠ [] := by
            intro hmeq
            exact hne (by rw [hmeq])
          obtain ⟨hsz, hcd46⟩ := parseLoop_first _ _ _ m hp hmne
          have hcdlen1 : (readAt data ((endrec.offset : Int) +
              concatOffset endrec).toNat endrec.size).length ≤ endrec.size := by
            unfold readAt
            rw [List.length_take]
            omega
          have hcdlen2 : (readAt data ((endrec.offset : Int) +
              concatOffset endrec).toNat endrec.size).length ≤
              data.length - ((endrec.offset : Int) +
                concatOffset endrec).toNat := by
            unfold readAt
            rw [List.length_take, List.length_drop]
            omega
          have hz0 : (0 : Int) ≤ (if endrec.signature = endArchive64String then
              ((endArchive64Size + endArchive64LocatorSize : Nat) : Int)
              else 0) := by
            split
            · positivity
            · omega
          have hco : concatOffset endrec = (endrec.location : Int) -
              endrec.size - endrec.offset -
              (if endrec.signature = endArchive64String then
                ((endArchive64Size + endArchive64LocatorSize : Nat) : Int)
                else 0) := rfl
          have hloc46 : 46 ≤ endrec.location := by
            omega
          have hlen46 : 46 ≤ data.length := by
            omega
          have hx' := extractEndArchive_shift pfx data endrec (by omega)
            (by omega) hx
          unfold readContents
          rw [hx']
          dsimp only
          unfold readCentralDir
          dsimp only
          rw [concatOffset_shift]
          rw [show (endrec.offset : Int) + (concatOffset endrec + pfx.length) =
            ((endrec.offset : Int) + concatOffset endrec) + pfx.length from by
              ring]
          rw [if_neg (by omega : ¬ ((endrec.offset : Int) + concatOffset endrec)
            + (pfx.length : Int) < 0)]
          rw [show (((endrec.offset : Int) + concatOffset endrec) +
              (pfx.length : Int)).toNat = pfx.length +
              ((endrec.offset : Int) + concatOffset endrec).toNat from by omega]
          rw [readAt_append_shift]
          rw [show (concatOffset endrec + (pfx.length : Int)) =
            (concatOffset endrec + ((pfx.length : Nat) : Int)) from rfl]
          rw [parseLoop_shift, hp]
          simp [Except.map, shiftContents]

/-- Little-endian encoding of a 64-bit value (test-fixture helper). -/
def u64b (n : Nat) : Bytes := u32b (n % 4294967296) ++ u32b (n / 4294967296)

/-- A central-directory record planted inside the adversarial prefix: one
stored entry named `x` with header-offset field 5. -/
def fakeCd : Bytes := mkCentralEntry 0 0 0 0 5 [120]

/-- A ZIP64 EOCD record planted inside the adversarial prefix: directory
size 47, directory offset 0, one entry. -/
def fakeZip64Rec : Bytes :=
  endArchive64String ++ u64b 44 ++ u16b 45 ++ u16b 45 ++ u32b 0 ++ u32b 0 ++
    u64b 1 ++ u64b 1 ++ u64b 47 ++ u64b 0

/-- A ZIP64 EOCD locator planted inside the adversarial prefix: disk 0 of
1 disk. -/
def fakeZip64Loc : Bytes :=
  endArchive64LocatorString ++ u32b 0 ++ u64b 47 ++ u32b 1

/-- The 123-byte adversarial prefix: a fake central directory, a fake
ZIP64 record and a fake ZIP64 locator, positioned so that prepending it to
`emptyZip22` puts the fake structures exactly where the ZIP64 probe of the
prefixed archive reads. -/
def archiveC8pfx : Bytes := fakeCd ++ fakeZip64Rec ++ fakeZip64Loc

/-- The entry the prefixed archive's parse recovers from the planted
central directory. -/
def infoC8 : ZipInfoRO :=
  { filename := [120], flagBits := 0, headerOffset := 5,
    compressSize := 0, fileSize := 0 }

/-- The EOCD record of `archiveC8pfx ++ emptyZip22` after the ZIP64 probe
swallowed the planted structures. -/
def endrecC8 : EndArchive :=
  { signature := [80, 75, 6, 6], diskNumber := 0, diskStart := 0,
    entriesThisDisk := 1, entriesTotal := 1, size := 47, offset := 0,
    commentSize := 0, comment := [], location := 123 }

/-- The empty archive parses to an empty entry table at directory start
0. -/
theorem readContents_emptyZip22 : readContents emptyZip22 = .ok ⟨[], 0⟩ := by
  have hx : extractEndArchive emptyZip22 = .ok (some eocdEmpty) := by decide
  have h1 := readContents_eval emptyZip22 eocdEmpty hx
  have hcd : readAt emptyZip22 ((eocdEmpty.offset : Int) +
      concatOffset eocdEmpty).toNat eocdEmpty.size = [] := by decide
  have h3 := readCentralDir_eval emptyZip22 eocdEmpty [] (by decide) hcd
  have hparse : parseLoop [] eocdEmpty.size (concatOffset eocdEmpty) 0 [] =
      .ok [] := by
    rw [parseLoop]
    simp +decide [parseLoop]
  rw [h1, h3, hparse]
  rfl

/-- The prefixed empty archive parses to ONE entry: the ZIP64 probe of the
prefixed archive reads prefix bytes (the probe the original archive never
ran, its position being negative there) and redirects the parse into the
planted central directory. -/
theorem readContents_archiveC8 :
    readContents (archiveC8pfx ++ emptyZip22) = .ok ⟨[([120], infoC8)], 0⟩ := by
  have hx : extractEndArchive (archiveC8pfx ++ emptyZip22) =
      .ok (some endrecC8) := by decide
  have h1 := readContents_eval (archiveC8pfx ++ emptyZip22) endrecC8 hx
  have hcd : readAt (archiveC8pfx ++ emptyZip22) ((endrecC8.offset : Int) +
      concatOffset endrecC8).toNat endrecC8.size = fakeCd := by decide
  have h3 := readCentralDir_eval (archiveC8pfx ++ emptyZip22) endrecC8 fakeCd
    (by decide) hcd
  have hparse : parseLoop fakeCd endrecC8.size (concatOffset endrecC8) 0 [] =
      .ok [([120], infoC8)] := by
    rw [parseLoop]
    simp +decide [parseLoop, infoC8]
  rw [h1, h3, hparse]
  rfl

/-- C8, counterexample: prepending 123 bytes to the empty archive does NOT
shift its (empty) parse result - both parses succeed but the prefixed one
recovers an entry that does not exist in the original, because the original
skipped the ZIP64 probe (negative position) while the prefixed archive
probes into attacker-controlled prefix bytes. -/
theorem claimC8_counterexample :
    readContents emptyZip22 = .ok ⟨[], 0⟩ ∧
    readContents (archiveC8pfx ++ emptyZip22) =
      .ok ⟨[([120], infoC8)], 0⟩ ∧
    readContents (archiveC8pfx ++ emptyZip22) ≠
      .ok (shiftContents archiveC8pfx.length ⟨[], 0⟩) := by
  refine ⟨readContents_emptyZip22, readContents_archiveC8, ?_⟩
  rw [readContents_archiveC8]
  decide

/-- The EOCD record of `archiveC10` (entry counts carry the embedded
signature bytes). -/
def endrecC10 : EndArchive :=
  { signature := [80, 75, 5, 6], diskNumber := 0, diskStart := 0,
    entriesThisDisk := 19280, entriesTotal := 1541, size := 51, offset := 45,
    commentSize := 0, comment := [], location := 96 }

/-- The adversarial C10 archive parses like `archiveSurplus`. -/
theorem readContents_archiveC10 :
    readContents archiveC10 = .ok ⟨[(nameAtxt, infoSurplus)], 45⟩ := by
  have hx : extractEndArchive archiveC10 = .ok (some endrecC10) := by decide
  have h1 := readContents_eval archiveC10 endrecC10 hx
  have hcd : readAt archiveC10 ((endrecC10.offset : Int) +
      concatOffset endrecC10).toNat endrecC10.size =
      mkCentralEntry 0 0 10 5 0 nameAtxt := by decide
  have h3 := readCentralDir_eval archiveC10 endrecC10
    (mkCentralEntry 0 0 10 5 0 nameAtxt) (by decide) hcd
  have hparse : parseLoop (mkCentralEntry 0 0 10 5 0 nameAtxt)
      endrecC10.size (concatOffset endrecC10) 0 [] =
      .ok [(nameAtxt, infoSurplus)] := by
    rw [parseLoop]
    simp +decide [parseLoop, infoSurplus]
  rw [h1, h3, hparse]
  rfl

/-- C10, counterexample: `archiveC10` is a well-formed archive (it parses)
whose EOCD record has a zero-length comment, yet the fast path locates the
record at offset 96 while the backward scan returns `None`: the two paths do
NOT produce identical records for every zero-comment archive. -/
theorem claimC10_counterexample :
    readContents archiveC10 = .ok ⟨[(nameAtxt, infoSurplus)], 45⟩ ∧
    (unpackEndArchive (archiveC10.drop (archiveC10.length - endArchiveSize))).commentSize
        = 0 ∧
    (fastEndArchive archiveC10).map EndArchive.location = some 96 ∧
    scanEndArchive archiveC10 = none := by
  refine ⟨readContents_archiveC10, by decide, by decide, by decide⟩

/-- C7, witness: a 30-byte signature-free source - the window arithmetic
and no-signature clauses of `claimC7_locator_fallback` at a concrete
input. -/
theorem claimC7_witness :
    fastEndArchive (List.replicate 30 7) = none ∧
      readContents (List.replicate 30 7) = .error .badZipNotZip :=
  (claimC7_locator_fallback (List.replicate 30 7) (by decide)).2.2.2 (by decide)

/-- C8 (amended): the concatenation offset places the directory start at
`offset_cd + concat` with `concat = location - size_cd - offset_cd`,
reduced by the ZIP64 sizes when ZIP64 structures were found (the
`concatOffset` definition); a negative directory start is the fatal
bad-offset error; and - the amendment - prepending `N` arbitrary bytes
shifts every recovered header offset and the directory start by exactly
`N` PROVIDED the original archive's parse stored at least one entry.  The
unamended for-all-archives prefix claim is refuted by
`claimC8_counterexample`. -/
theorem claimC8_offsets_amended :
    (∀ data endrec c, extractEndArchive data = .ok (some endrec) →
        readContents data = .ok c →
        c.startDir = (endrec.offset : Int) + concatOffset endrec) ∧
    (∀ data endrec, extractEndArchive data = .ok (some endrec) →
        (endrec.offset : Int) + concatOffset endrec < 0 →
        readContents data = .error .badZipBadCdOffset) ∧
    (∀ pfx data c, readContents data = .ok c → c.nameToInfo ≠ [] →
        readContents (pfx ++ data) = .ok (shiftContents pfx.length c)) :=
  ⟨readContents_startDir_eq, readContents_neg_offset, readContents_prefix_shift⟩

/-- C8, witness: prepending one byte to the one-entry `archiveSurplus`
shifts its header offset and directory start by exactly one. -/
theorem claimC8_witness :
    readContents ([7] ++ archiveSurplus) =
      .ok (shiftContents 1 ⟨[(nameAtxt, infoSurplus)], 45⟩) :=
  claimC8_offsets_amended.2.2 [7] archiveSurplus ⟨[(nameAtxt, infoSurplus)], 45⟩
    readContents_archiveSurplus (by decide)

/-- C10, witness: on the empty archive the fast path and the scan fallback
locate the same record, via `claimC10_fast_scan_agree` at a concrete
input. -/
theorem claimC10_witness :
    fastEndArchive emptyZip22 = some eocdEmpty ∧
      scanEndArchive emptyZip22 = some eocdEmpty :=
  ⟨by decide, claimC10_fast_scan_agree emptyZip22 eocdEmpty (by decide) (by decide)⟩

end ArchiveZip
